import Mathlib

/-!
# Verification of the taffy builder layer

A shallow embedding of the `StyleBuilder` fluent builder
(`src/style/builder.rs`) and the closure-based `StyleNode` builder
(`src/tree/builder.rs`) of the taffy layout library, together with a model of
the core tree store they drive (`TaffyTree`: `new_leaf`, `set_children`,
`compute_layout`), which is not part of the sources and is therefore modelled
from the specification's arena contract.

`f32` values are carried opaquely by the builder (it performs no arithmetic on
them), so they are modelled as integers with decidable equality.
-/

namespace Taffy

/-- Opaque model of `f32`: the builder layer only stores and compares these. -/
abbrev F32 := Int

/-- Modelled from the spec: the public style-enum vocabulary is a fixed data
contract. `Display` selects the layout algorithm. -/
inductive Display where
  | Block
  | Flex
  | Grid
  | NoneDisplay
deriving DecidableEq

/-- Modelled from the spec: box-sizing mode of the box model. -/
inductive BoxSizing where
  | BorderBox
  | ContentBox
deriving DecidableEq

/-- Modelled from the spec: per-axis overflow behaviour. -/
inductive Overflow where
  | Visible
  | Clip
  | Hidden
  | Scroll
deriving DecidableEq

/-- Modelled from the spec: position mode. -/
inductive Position where
  | Relative
  | Absolute
deriving DecidableEq

/-- Modelled from the spec: text alignment (legacy block modes). -/
inductive TextAlign where
  | Auto
  | LegacyLeft
  | LegacyRight
  | LegacyCenter
deriving DecidableEq

/-- Modelled from the spec: main axis selection for flexbox. -/
inductive FlexDirection where
  | Row
  | Column
  | RowReverse
  | ColumnReverse
deriving DecidableEq

/-- Modelled from the spec: flex line wrapping. -/
inductive FlexWrap where
  | NoWrap
  | Wrap
  | WrapReverse
deriving DecidableEq

/-- Modelled from the spec: grid auto-placement order. -/
inductive GridAutoFlow where
  | Row
  | Column
  | RowDense
  | ColumnDense
deriving DecidableEq

/-- Modelled from the spec: the alignment vocabulary shared by
`align-items` / `align-self` / `justify-items` / `justify-self`. -/
inductive AlignItems where
  | Start
  | End
  | FlexStart
  | FlexEnd
  | Center
  | Baseline
  | Stretch
deriving DecidableEq

/-- `AlignSelf` is the same vocabulary as `AlignItems`. -/
abbrev AlignSelf := AlignItems

/-- Modelled from the spec: the content-distribution vocabulary shared by
`align-content` / `justify-content`. -/
inductive AlignContent where
  | Start
  | End
  | FlexStart
  | FlexEnd
  | Center
  | Stretch
  | SpaceBetween
  | SpaceEvenly
  | SpaceAround
deriving DecidableEq

/-- `JustifyContent` is the same vocabulary as `AlignContent`. -/
abbrev JustifyContent := AlignContent

/-- Modelled from the spec: a length or a percentage of the containing block. -/
inductive LengthPercentage where
  | Length (value : F32)
  | Percent (value : F32)
deriving DecidableEq

/-- Modelled from the spec: a length, a percentage, or `auto`. -/
inductive LengthPercentageAuto where
  | Length (value : F32)
  | Percent (value : F32)
  | Auto
deriving DecidableEq

/-- Modelled from the spec: a dimension is a length, a percentage, or `auto`. -/
inductive Dimension where
  | Length (value : F32)
  | Percent (value : F32)
  | Auto
deriving DecidableEq

/-- Modelled from the spec: placement of a grid item line (auto, a numbered
line, or a span). -/
inductive GridPlacement where
  | Auto
  | Line (index : Int)
  | Span (count : Nat)
deriving DecidableEq

/-- Modelled from the spec: a non-repeated track-sizing function (fixed,
percentage, intrinsic `auto`, flexible `fr`, or `minmax`). The builder layer
only stores these values. -/
inductive NonRepeatedTrackSizingFunction where
  | Fixed (value : LengthPercentage)
  | Auto
  | MinContent
  | MaxContent
  | Fraction (value : F32)
  | MinMax (min : LengthPercentage) (max : F32)
deriving DecidableEq

/-- Modelled from the spec: a track-sizing function, possibly a `repeat` with a
fixed or auto count. The builder layer only stores these values. -/
inductive TrackSizingFunction where
  | Single (f : NonRepeatedTrackSizingFunction)
  | Repeat (count : Nat) (tracks : List NonRepeatedTrackSizingFunction)
  | AutoRepeat (fit : Bool) (tracks : List NonRepeatedTrackSizingFunction)
deriving DecidableEq

/-- A point with one value per axis. -/
structure Point (α : Type) where
  x : α
  y : α
deriving DecidableEq

/-- A rectangle of four per-edge values. -/
structure Rect (α : Type) where
  left : α
  right : α
  top : α
  bottom : α
deriving DecidableEq

/-- A width/height pair. -/
structure Size (α : Type) where
  width : α
  height : α
deriving DecidableEq

/-- A start/end pair (the `end` edge is called `end_`). -/
structure Line (α : Type) where
  start : α
  end_ : α
deriving DecidableEq

/-- Grid track vectors are ordinary sequences. -/
abbrev GridTrackVec (α : Type) := List α

/-- Modelled from the spec: the per-node style record (the fixed data contract
consumed by the layout core). Field set and order follow the
`builder_fields!` invocation of `src/style/builder.rs`. -/
structure Style where
  display : Display
  item_is_table : Bool
  box_sizing : BoxSizing
  overflow : Point Overflow
  scrollbar_width : F32
  position : Position
  inset : Rect LengthPercentageAuto
  size : Size Dimension
  min_size : Size Dimension
  max_size : Size Dimension
  aspect_ratio : Option F32
  margin : Rect LengthPercentageAuto
  padding : Rect LengthPercentage
  border : Rect LengthPercentage
  align_items : Option AlignItems
  align_self : Option AlignSelf
  justify_items : Option AlignItems
  justify_self : Option AlignSelf
  align_content : Option AlignContent
  justify_content : Option JustifyContent
  gap : Size LengthPercentage
  text_align : TextAlign
  flex_direction : FlexDirection
  flex_wrap : FlexWrap
  flex_basis : Dimension
  flex_grow : F32
  flex_shrink : F32
  grid_template_rows : GridTrackVec TrackSizingFunction
  grid_template_columns : GridTrackVec TrackSizingFunction
  grid_auto_rows : GridTrackVec NonRepeatedTrackSizingFunction
  grid_auto_columns : GridTrackVec NonRepeatedTrackSizingFunction
  grid_auto_flow : GridAutoFlow
  grid_row : Line GridPlacement
  grid_column : Line GridPlacement
deriving DecidableEq

/-- Modelled from the spec: `Style::default()` of the style data contract
(initial value of every style property). -/
def Style.default : Style where
  display := .Flex
  item_is_table := false
  box_sizing := .BorderBox
  overflow := ⟨.Visible, .Visible⟩
  scrollbar_width := 0
  position := .Relative
  inset := ⟨.Auto, .Auto, .Auto, .Auto⟩
  size := ⟨.Auto, .Auto⟩
  min_size := ⟨.Auto, .Auto⟩
  max_size := ⟨.Auto, .Auto⟩
  aspect_ratio := none
  margin := ⟨.Length 0, .Length 0, .Length 0, .Length 0⟩
  padding := ⟨.Length 0, .Length 0, .Length 0, .Length 0⟩
  border := ⟨.Length 0, .Length 0, .Length 0, .Length 0⟩
  align_items := none
  align_self := none
  justify_items := none
  justify_self := none
  align_content := none
  justify_content := none
  gap := ⟨.Length 0, .Length 0⟩
  text_align := .Auto
  flex_direction := .Row
  flex_wrap := .NoWrap
  flex_basis := .Auto
  flex_grow := 0
  flex_shrink := 1
  grid_template_rows := []
  grid_template_columns := []
  grid_auto_rows := []
  grid_auto_columns := []
  grid_auto_flow := .Row
  grid_row := ⟨.Auto, .Auto⟩
  grid_column := ⟨.Auto, .Auto⟩

/-- The optional style fields stored by `StyleBuilder` (`src/style/builder.rs`
lines 15-49): one `Option` per style field, all initially `None`. -/
structure StyleFields where
  display : Option Display := none
  item_is_table : Option Bool := none
  box_sizing : Option BoxSizing := none
  overflow : Option (Point Overflow) := none
  scrollbar_width : Option F32 := none
  position : Option Position := none
  inset : Option (Rect LengthPercentageAuto) := none
  size : Option (Size Dimension) := none
  min_size : Option (Size Dimension) := none
  max_size : Option (Size Dimension) := none
  aspect_ratio : Option (Option F32) := none
  margin : Option (Rect LengthPercentageAuto) := none
  padding : Option (Rect LengthPercentage) := none
  border : Option (Rect LengthPercentage) := none
  align_items : Option (Option AlignItems) := none
  align_self : Option (Option AlignSelf) := none
  justify_items : Option (Option AlignItems) := none
  justify_self : Option (Option AlignSelf) := none
  align_content : Option (Option AlignContent) := none
  justify_content : Option (Option JustifyContent) := none
  gap : Option (Size LengthPercentage) := none
  text_align : Option TextAlign := none
  flex_direction : Option FlexDirection := none
  flex_wrap : Option FlexWrap := none
  flex_basis : Option Dimension := none
  flex_grow : Option F32 := none
  flex_shrink : Option F32 := none
  grid_template_rows : Option (GridTrackVec TrackSizingFunction) := none
  grid_template_columns : Option (GridTrackVec TrackSizingFunction) := none
  grid_auto_rows : Option (GridTrackVec NonRepeatedTrackSizingFunction) := none
  grid_auto_columns : Option (GridTrackVec NonRepeatedTrackSizingFunction) := none
  grid_auto_flow : Option GridAutoFlow := none
  grid_row : Option (Line GridPlacement) := none
  grid_column : Option (Line GridPlacement) := none
deriving DecidableEq

mutual
/-- The fluent style builder (`src/style/builder.rs` lines 10-49): a list of
child builders, an optional ref handle, and the optional style fields.
Because the Rust struct holds its children as a `Vec` of references, it is
encoded as a mutual inductive with an explicit child-list type. A `RefHandle`
(an `Rc<RefCell<Option<NodeId>>>` shared cell) is modelled as a `Nat` index
into the handle store of the build state, so that cloned handles alias the
same cell; node ids (arena indices) are likewise plain `Nat`. -/
inductive StyleBuilder where
  | mk (children : StyleBuilderList) (ref_handle : Option Nat) (fields : StyleFields)

/-- The child list of a `StyleBuilder` (Rust `Vec<&StyleBuilder>`). -/
inductive StyleBuilderList where
  | nil
  | cons (head : StyleBuilder) (tail : StyleBuilderList)
end

/-- The children of a builder. -/
def StyleBuilder.children : StyleBuilder → StyleBuilderList
  | .mk cs _ _ => cs

/-- The optional ref handle of a builder. -/
def StyleBuilder.ref_handle : StyleBuilder → Option Nat
  | .mk _ h _ => h

/-- The optional style fields of a builder. -/
def StyleBuilder.fields : StyleBuilder → StyleFields
  | .mk _ _ fs => fs

/-- View a builder child list as an ordinary list. -/
def StyleBuilderList.toList : StyleBuilderList → List StyleBuilder
  | .nil => []
  | .cons c t => c :: t.toList

/-- Append a child at the end of a builder child list (Rust `Vec::push`). -/
def StyleBuilderList.push : StyleBuilderList → StyleBuilder → StyleBuilderList
  | .nil, c => .cons c .nil
  | .cons h t, c => .cons h (t.push c)

/-- `StyleBuilder::default()`: no children, no handle, every field `None`. -/
def StyleBuilder.default : StyleBuilder := .mk .nil none {}

/-- `StyleBuilder::new()` (`src/style/builder.rs` line 134). -/
def StyleBuilder.new : StyleBuilder := StyleBuilder.default

/-- `build_style` (`src/style/builder.rs` lines 64-71, expanded from the
`builder_fields!` macro): each style field is the stored value if set,
otherwise the corresponding field of `Style::default()` (`unwrap_or`). -/
def StyleBuilder.build_style (b : StyleBuilder) : Style :=
  let f := b.fields
  let d := Style.default
  { display := f.display.getD d.display
    item_is_table := f.item_is_table.getD d.item_is_table
    box_sizing := f.box_sizing.getD d.box_sizing
    overflow := f.overflow.getD d.overflow
    scrollbar_width := f.scrollbar_width.getD d.scrollbar_width
    position := f.position.getD d.position
    inset := f.inset.getD d.inset
    size := f.size.getD d.size
    min_size := f.min_size.getD d.min_size
    max_size := f.max_size.getD d.max_size
    aspect_ratio := f.aspect_ratio.getD d.aspect_ratio
    margin := f.margin.getD d.margin
    padding := f.padding.getD d.padding
    border := f.border.getD d.border
    align_items := f.align_items.getD d.align_items
    align_self := f.align_self.getD d.align_self
    justify_items := f.justify_items.getD d.justify_items
    justify_self := f.justify_self.getD d.justify_self
    align_content := f.align_content.getD d.align_content
    justify_content := f.justify_content.getD d.justify_content
    gap := f.gap.getD d.gap
    text_align := f.text_align.getD d.text_align
    flex_direction := f.flex_direction.getD d.flex_direction
    flex_wrap := f.flex_wrap.getD d.flex_wrap
    flex_basis := f.flex_basis.getD d.flex_basis
    flex_grow := f.flex_grow.getD d.flex_grow
    flex_shrink := f.flex_shrink.getD d.flex_shrink
    grid_template_rows := f.grid_template_rows.getD d.grid_template_rows
    grid_template_columns := f.grid_template_columns.getD d.grid_template_columns
    grid_auto_rows := f.grid_auto_rows.getD d.grid_auto_rows
    grid_auto_columns := f.grid_auto_columns.getD d.grid_auto_columns
    grid_auto_flow := f.grid_auto_flow.getD d.grid_auto_flow
    grid_row := f.grid_row.getD d.grid_row
    grid_column := f.grid_column.getD d.grid_column }

/-- Setter generated by `builder_fields!` for `display`: stores `Some v`. -/
def StyleBuilder.display (b : StyleBuilder) (v : Display) : StyleBuilder :=
  .mk b.children b.ref_handle { b.fields with display := some v }

/-- Setter generated by `builder_fields!` for `item_is_table`. -/
def StyleBuilder.item_is_table (b : StyleBuilder) (v : Bool) : StyleBuilder :=
  .mk b.children b.ref_handle { b.fields with item_is_table := some v }

/-- Setter generated by `builder_fields!` for `box_sizing`. -/
def StyleBuilder.box_sizing (b : StyleBuilder) (v : BoxSizing) : StyleBuilder :=
  .mk b.children b.ref_handle { b.fields with box_sizing := some v }

/-- Setter generated by `builder_fields!` for `overflow`. -/
def StyleBuilder.overflow (b : StyleBuilder) (v : Point Overflow) : StyleBuilder :=
  .mk b.children b.ref_handle { b.fields with overflow := some v }

/-- Setter generated by `builder_fields!` for `scrollbar_width`. -/
def StyleBuilder.scrollbar_width (b : StyleBuilder) (v : F32) : StyleBuilder :=
  .mk b.children b.ref_handle { b.fields with scrollbar_width := some v }

/-- Setter generated by `builder_fields!` for `position`. -/
def StyleBuilder.position (b : StyleBuilder) (v : Position) : StyleBuilder :=
  .mk b.children b.ref_handle { b.fields with position := some v }

/-- Setter generated by `builder_fields!` for `inset`. -/
def StyleBuilder.inset (b : StyleBuilder) (v : Rect LengthPercentageAuto) : StyleBuilder :=
  .mk b.children b.ref_handle { b.fields with inset := some v }

/-- Setter generated by `builder_fields!` for `size`. -/
def StyleBuilder.size (b : StyleBuilder) (v : Size Dimension) : StyleBuilder :=
  .mk b.children b.ref_handle { b.fields with size := some v }

/-- Setter generated by `builder_fields!` for `min_size`. -/
def StyleBuilder.min_size (b : StyleBuilder) (v : Size Dimension) : StyleBuilder :=
  .mk b.children b.ref_handle { b.fields with min_size := some v }

/-- Setter generated by `builder_fields!` for `max_size`. -/
def StyleBuilder.max_size (b : StyleBuilder) (v : Size Dimension) : StyleBuilder :=
  .mk b.children b.ref_handle { b.fields with max_size := some v }

/-- Setter generated by `builder_fields!` for `aspect_ratio`. -/
def StyleBuilder.aspect_ratio (b : StyleBuilder) (v : Option F32) : StyleBuilder :=
  .mk b.children b.ref_handle { b.fields with aspect_ratio := some v }

/-- Setter generated by `builder_fields!` for `margin`. -/
def StyleBuilder.margin (b : StyleBuilder) (v : Rect LengthPercentageAuto) : StyleBuilder :=
  .mk b.children b.ref_handle { b.fields with margin := some v }

/-- Setter generated by `builder_fields!` for `padding`. -/
def StyleBuilder.padding (b : StyleBuilder) (v : Rect LengthPercentage) : StyleBuilder :=
  .mk b.children b.ref_handle { b.fields with padding := some v }

/-- Setter generated by `builder_fields!` for `border`. -/
def StyleBuilder.border (b : StyleBuilder) (v : Rect LengthPercentage) : StyleBuilder :=
  .mk b.children b.ref_handle { b.fields with border := some v }

/-- Setter generated by `builder_fields!` for `align_items`. -/
def StyleBuilder.align_items (b : StyleBuilder) (v : Option AlignItems) : StyleBuilder :=
  .mk b.children b.ref_handle { b.fields with align_items := some v }

/-- Setter generated by `builder_fields!` for `align_self`. -/
def StyleBuilder.align_self (b : StyleBuilder) (v : Option AlignSelf) : StyleBuilder :=
  .mk b.children b.ref_handle { b.fields with align_self := some v }

/-- Setter generated by `builder_fields!` for `justify_items`. -/
def StyleBuilder.justify_items (b : StyleBuilder) (v : Option AlignItems) : StyleBuilder :=
  .mk b.children b.ref_handle { b.fields with justify_items := some v }

/-- Setter generated by `builder_fields!` for `justify_self`. -/
def StyleBuilder.justify_self (b : StyleBuilder) (v : Option AlignSelf) : StyleBuilder :=
  .mk b.children b.ref_handle { b.fields with justify_self := some v }

/-- Setter generated by `builder_fields!` for `align_content`. -/
def StyleBuilder.align_content (b : StyleBuilder) (v : Option AlignContent) : StyleBuilder :=
  .mk b.children b.ref_handle { b.fields with align_content := some v }

/-- Setter generated by `builder_fields!` for `justify_content`. -/
def StyleBuilder.justify_content (b : StyleBuilder) (v : Option JustifyContent) : StyleBuilder :=
  .mk b.children b.ref_handle { b.fields with justify_content := some v }

/-- Setter generated by `builder_fields!` for `gap`. -/
def StyleBuilder.gap (b : StyleBuilder) (v : Size LengthPercentage) : StyleBuilder :=
  .mk b.children b.ref_handle { b.fields with gap := some v }

/-- Setter generated by `builder_fields!` for `text_align`. -/
def StyleBuilder.text_align (b : StyleBuilder) (v : TextAlign) : StyleBuilder :=
  .mk b.children b.ref_handle { b.fields with text_align := some v }

/-- Setter generated by `builder_fields!` for `flex_direction`. -/
def StyleBuilder.flex_direction (b : StyleBuilder) (v : FlexDirection) : StyleBuilder :=
  .mk b.children b.ref_handle { b.fields with flex_direction := some v }

/-- Setter generated by `builder_fields!` for `flex_wrap`. -/
def StyleBuilder.flex_wrap (b : StyleBuilder) (v : FlexWrap) : StyleBuilder :=
  .mk b.children b.ref_handle { b.fields with flex_wrap := some v }

/-- Setter generated by `builder_fields!` for `flex_basis`. -/
def StyleBuilder.flex_basis (b : StyleBuilder) (v : Dimension) : StyleBuilder :=
  .mk b.children b.ref_handle { b.fields with flex_basis := some v }

/-- Setter generated by `builder_fields!` for `flex_grow`. -/
def StyleBuilder.flex_grow (b : StyleBuilder) (v : F32) : StyleBuilder :=
  .mk b.children b.ref_handle { b.fields with flex_grow := some v }

/-- Setter generated by `builder_fields!` for `flex_shrink`. -/
def StyleBuilder.flex_shrink (b : StyleBuilder) (v : F32) : StyleBuilder :=
  .mk b.children b.ref_handle { b.fields with flex_shrink := some v }

/-- Setter generated by `builder_fields!` for `grid_template_rows`. -/
def StyleBuilder.grid_template_rows (b : StyleBuilder) (v : GridTrackVec TrackSizingFunction) :
    StyleBuilder :=
  .mk b.children b.ref_handle { b.fields with grid_template_rows := some v }

/-- Setter generated by `builder_fields!` for `grid_template_columns`. -/
def StyleBuilder.grid_template_columns (b : StyleBuilder) (v : GridTrackVec TrackSizingFunction) :
    StyleBuilder :=
  .mk b.children b.ref_handle { b.fields with grid_template_columns := some v }

/-- Setter generated by `builder_fields!` for `grid_auto_rows`. -/
def StyleBuilder.grid_auto_rows (b : StyleBuilder)
    (v : GridTrackVec NonRepeatedTrackSizingFunction) : StyleBuilder :=
  .mk b.children b.ref_handle { b.fields with grid_auto_rows := some v }

/-- Setter generated by `builder_fields!` for `grid_auto_columns`. -/
def StyleBuilder.grid_auto_columns (b : StyleBuilder)
    (v : GridTrackVec NonRepeatedTrackSizingFunction) : StyleBuilder :=
  .mk b.children b.ref_handle { b.fields with grid_auto_columns := some v }

/-- Setter generated by `builder_fields!` for `grid_auto_flow`. -/
def StyleBuilder.grid_auto_flow (b : StyleBuilder) (v : GridAutoFlow) : StyleBuilder :=
  .mk b.children b.ref_handle { b.fields with grid_auto_flow := some v }

/-- Setter generated by `builder_fields!` for `grid_row`. -/
def StyleBuilder.grid_row (b : StyleBuilder) (v : Line GridPlacement) : StyleBuilder :=
  .mk b.children b.ref_handle { b.fields with grid_row := some v }

/-- Setter generated by `builder_fields!` for `grid_column`. -/
def StyleBuilder.grid_column (b : StyleBuilder) (v : Line GridPlacement) : StyleBuilder :=
  .mk b.children b.ref_handle { b.fields with grid_column := some v }

/-- `StyleBuilder::row()` (`src/style/builder.rs` lines 138-142): a fresh
builder on which only the `flex_direction` setter has been called with `Row`. -/
def StyleBuilder.row : StyleBuilder := StyleBuilder.new.flex_direction .Row

/-- `StyleBuilder::column()` (`src/style/builder.rs` lines 144-148). -/
def StyleBuilder.column : StyleBuilder := StyleBuilder.new.flex_direction .Column

/-- `StyleBuilder::child` (`src/style/builder.rs` lines 150-153): push a child
builder at the end of the child list. -/
def StyleBuilder.child (b : StyleBuilder) (c : StyleBuilder) : StyleBuilder :=
  .mk (b.children.push c) b.ref_handle b.fields

/-- `StyleBuilder::handle` (`src/style/builder.rs` lines 170-173): attach a ref
handle. -/
def StyleBuilder.handle (b : StyleBuilder) (h : Nat) : StyleBuilder :=
  .mk b.children (some h) b.fields

/-- One call to one of the 34 field setters of `StyleBuilder`, with its
argument. Used to quantify over arbitrary setter-call sequences. -/
inductive SetterCall where
  | display (v : Display)
  | item_is_table (v : Bool)
  | box_sizing (v : BoxSizing)
  | overflow (v : Point Overflow)
  | scrollbar_width (v : F32)
  | position (v : Position)
  | inset (v : Rect LengthPercentageAuto)
  | size (v : Size Dimension)
  | min_size (v : Size Dimension)
  | max_size (v : Size Dimension)
  | aspect_ratio (v : Option F32)
  | margin (v : Rect LengthPercentageAuto)
  | padding (v : Rect LengthPercentage)
  | border (v : Rect LengthPercentage)
  | align_items (v : Option AlignItems)
  | align_self (v : Option AlignSelf)
  | justify_items (v : Option AlignItems)
  | justify_self (v : Option AlignSelf)
  | align_content (v : Option AlignContent)
  | justify_content (v : Option JustifyContent)
  | gap (v : Size LengthPercentage)
  | text_align (v : TextAlign)
  | flex_direction (v : FlexDirection)
  | flex_wrap (v : FlexWrap)
  | flex_basis (v : Dimension)
  | flex_grow (v : F32)
  | flex_shrink (v : F32)
  | grid_template_rows (v : GridTrackVec TrackSizingFunction)
  | grid_template_columns (v : GridTrackVec TrackSizingFunction)
  | grid_auto_rows (v : GridTrackVec NonRepeatedTrackSizingFunction)
  | grid_auto_columns (v : GridTrackVec NonRepeatedTrackSizingFunction)
  | grid_auto_flow (v : GridAutoFlow)
  | grid_row (v : Line GridPlacement)
  | grid_column (v : Line GridPlacement)

/-- Perform one setter call on a builder, dispatching to the corresponding
setter method. -/
def applyCall (b : StyleBuilder) : SetterCall → StyleBuilder
  | .display v => b.display v
  | .item_is_table v => b.item_is_table v
  | .box_sizing v => b.box_sizing v
  | .overflow v => b.overflow v
  | .scrollbar_width v => b.scrollbar_width v
  | .position v => b.position v
  | .inset v => b.inset v
  | .size v => b.size v
  | .min_size v => b.min_size v
  | .max_size v => b.max_size v
  | .aspect_ratio v => b.aspect_ratio v
  | .margin v => b.margin v
  | .padding v => b.padding v
  | .border v => b.border v
  | .align_items v => b.align_items v
  | .align_self v => b.align_self v
  | .justify_items v => b.justify_items v
  | .justify_self v => b.justify_self v
  | .align_content v => b.align_content v
  | .justify_content v => b.justify_content v
  | .gap v => b.gap v
  | .text_align v => b.text_align v
  | .flex_direction v => b.flex_direction v
  | .flex_wrap v => b.flex_wrap v
  | .flex_basis v => b.flex_basis v
  | .flex_grow v => b.flex_grow v
  | .flex_shrink v => b.flex_shrink v
  | .grid_template_rows v => b.grid_template_rows v
  | .grid_template_columns v => b.grid_template_columns v
  | .grid_auto_rows v => b.grid_auto_rows v
  | .grid_auto_columns v => b.grid_auto_columns v
  | .grid_auto_flow v => b.grid_auto_flow v
  | .grid_row v => b.grid_row v
  | .grid_column v => b.grid_column v

/-- Perform a sequence of setter calls, left to right. -/
def applyCalls (b : StyleBuilder) (calls : List SetterCall) : StyleBuilder :=
  calls.foldl applyCall b

/-- Record the effect of one setter call on the optional field store alone
(specification side of claim C1: each setter assigns its own field). -/
def recordCall (f : StyleFields) : SetterCall → StyleFields
  | .display v => { f with display := some v }
  | .item_is_table v => { f with item_is_table := some v }
  | .box_sizing v => { f with box_sizing := some v }
  | .overflow v => { f with overflow := some v }
  | .scrollbar_width v => { f with scrollbar_width := some v }
  | .position v => { f with position := some v }
  | .inset v => { f with inset := some v }
  | .size v => { f with size := some v }
  | .min_size v => { f with min_size := some v }
  | .max_size v => { f with max_size := some v }
  | .aspect_ratio v => { f with aspect_ratio := some v }
  | .margin v => { f with margin := some v }
  | .padding v => { f with padding := some v }
  | .border v => { f with border := some v }
  | .align_items v => { f with align_items := some v }
  | .align_self v => { f with align_self := some v }
  | .justify_items v => { f with justify_items := some v }
  | .justify_self v => { f with justify_self := some v }
  | .align_content v => { f with align_content := some v }
  | .justify_content v => { f with justify_content := some v }
  | .gap v => { f with gap := some v }
  | .text_align v => { f with text_align := some v }
  | .flex_direction v => { f with flex_direction := some v }
  | .flex_wrap v => { f with flex_wrap := some v }
  | .flex_basis v => { f with flex_basis := some v }
  | .flex_grow v => { f with flex_grow := some v }
  | .flex_shrink v => { f with flex_shrink := some v }
  | .grid_template_rows v => { f with grid_template_rows := some v }
  | .grid_template_columns v => { f with grid_template_columns := some v }
  | .grid_auto_rows v => { f with grid_auto_rows := some v }
  | .grid_auto_columns v => { f with grid_auto_columns := some v }
  | .grid_auto_flow v => { f with grid_auto_flow := some v }
  | .grid_row v => { f with grid_row := some v }
  | .grid_column v => { f with grid_column := some v }

/-- For every style field, the most recently set value over a call sequence
(`none` when the field's setter was never called): the left fold of
`recordCall` starting from the all-`None` store. -/
def lastSet (calls : List SetterCall) : StyleFields :=
  calls.foldl recordCall {}

/-- Specification-side reading of claim C1: the style whose every field is the
given optional value when present, and the `Style::default()` field otherwise. -/
def styleFromLastSet (f : StyleFields) : Style :=
  let d := Style.default
  { display := f.display.getD d.display
    item_is_table := f.item_is_table.getD d.item_is_table
    box_sizing := f.box_sizing.getD d.box_sizing
    overflow := f.overflow.getD d.overflow
    scrollbar_width := f.scrollbar_width.getD d.scrollbar_width
    position := f.position.getD d.position
    inset := f.inset.getD d.inset
    size := f.size.getD d.size
    min_size := f.min_size.getD d.min_size
    max_size := f.max_size.getD d.max_size
    aspect_ratio := f.aspect_ratio.getD d.aspect_ratio
    margin := f.margin.getD d.margin
    padding := f.padding.getD d.padding
    border := f.border.getD d.border
    align_items := f.align_items.getD d.align_items
    align_self := f.align_self.getD d.align_self
    justify_items := f.justify_items.getD d.justify_items
    justify_self := f.justify_self.getD d.justify_self
    align_content := f.align_content.getD d.align_content
    justify_content := f.justify_content.getD d.justify_content
    gap := f.gap.getD d.gap
    text_align := f.text_align.getD d.text_align
    flex_direction := f.flex_direction.getD d.flex_direction
    flex_wrap := f.flex_wrap.getD d.flex_wrap
    flex_basis := f.flex_basis.getD d.flex_basis
    flex_grow := f.flex_grow.getD d.flex_grow
    flex_shrink := f.flex_shrink.getD d.flex_shrink
    grid_template_rows := f.grid_template_rows.getD d.grid_template_rows
    grid_template_columns := f.grid_template_columns.getD d.grid_template_columns
    grid_auto_rows := f.grid_auto_rows.getD d.grid_auto_rows
    grid_auto_columns := f.grid_auto_columns.getD d.grid_auto_columns
    grid_auto_flow := f.grid_auto_flow.getD d.grid_auto_flow
    grid_row := f.grid_row.getD d.grid_row
    grid_column := f.grid_column.getD d.grid_column }

/-- Modelled from the spec (section 7): the error kinds of the tree store. -/
inductive TaffyError where
  | InvalidNodeHandle
  | ChildAlreadyParented
  | NodeHasChildren
  | CycleDetected
  | MeasurementFailed
  | DepthLimitExceeded
deriving DecidableEq

/-- A per-node layout output: final size and offset relative to the parent. -/
structure Geom where
  width : F32
  height : F32
  x : F32
  y : F32
deriving DecidableEq

/-- The all-zero layout output a fresh node starts with. -/
def Geom.zero : Geom := ⟨0, 0, 0, 0⟩

/-- Modelled from the spec (section 3): one arena node owns its style, its
ordered child-handle list and its cached layout output. -/
structure Node where
  style : Style
  children : List Nat
  layout : Geom
deriving DecidableEq

/-- The kinds of core entry points; the tree store records which ones are
invoked so that interface-usage properties can be stated. -/
inductive CoreEvent where
  | newLeafEv
  | setChildrenEv
  | computeLayoutEv
  | cacheLookupEv
deriving DecidableEq

/-- Modelled from the spec (section 4.1): the arena-backed tree store, plus a
log of the core entry points invoked on it. -/
structure TaffyTree where
  nodes : List Node
  log : List CoreEvent
deriving DecidableEq

/-- The empty tree store (`TaffyTree::new()`). -/
def TaffyTree.new : TaffyTree := ⟨[], []⟩

/-- Append one entry-point event to the tree's log. -/
def logEvent (t : TaffyTree) (e : CoreEvent) : TaffyTree :=
  { t with log := t.log ++ [e] }

/-- Look a node up by handle. -/
def TaffyTree.getNode? (t : TaffyTree) (id : Nat) : Option Node :=
  t.nodes[id]?

/-- `children_of` of the spec's arena contract: the ordered child list. -/
def childrenOf (t : TaffyTree) (id : Nat) : Option (List Nat) :=
  (t.getNode? id).map Node.children

/-- Modelled from the spec (section 4.1): `create(style)` / `new_leaf` appends
a fresh node with no children and returns its handle. -/
def new_leaf (style : Style) (t : TaffyTree) : (Except TaffyError Nat) × TaffyTree :=
  let t := logEvent t .newLeafEv
  (.ok t.nodes.length, { t with nodes := t.nodes ++ [⟨style, [], Geom.zero⟩] })

/-- Modelled from the spec (section 3): parent linkage is implicit, looked up
via the structural edge. -/
def parent_of (t : TaffyTree) (c : Nat) : Option Nat :=
  t.nodes.findIdx? fun n => n.children.contains c

/-- Fuelled reachability along child edges (`src` reaches `dst`, including
`src = dst`), used for the cycle check of `set_children`. -/
def reaches (t : TaffyTree) : Nat → Nat → Nat → Bool
  | 0, _, _ => false
  | fuel + 1, src, dst =>
    src == dst ||
      match t.getNode? src with
      | none => false
      | some n => n.children.any fun c => reaches t fuel c dst

/-- Modelled from the spec (section 4.1): `set_children(handle, list)` replaces
the node's ordered child list; it fails if a handle is invalid, if a child
already has a different parent (no implicit reparenting), or if a cycle would
be introduced. -/
def set_children (id : Nat) (ids : List Nat) (t : TaffyTree) :
    (Except TaffyError Unit) × TaffyTree :=
  let t := logEvent t .setChildrenEv
  if t.nodes.length ≤ id then (.error .InvalidNodeHandle, t)
  else if ids.any (fun c => decide (t.nodes.length ≤ c)) then (.error .InvalidNodeHandle, t)
  else if ids.any (fun c => match parent_of t c with | some p => p != id | none => false) then
    (.error .ChildAlreadyParented, t)
  else if ids.any (fun c => reaches t (t.nodes.length + 1) c id) then (.error .CycleDetected, t)
  else
    (.ok (), { t with
      nodes := match t.nodes[id]? with
        | some n => t.nodes.set id { n with children := ids }
        | none => t.nodes })

/-- Modelled from the spec (section 6): `new_with_children` is node creation
followed by attaching the given ordered children. -/
def new_with_children (style : Style) (ids : List Nat) (t : TaffyTree) :
    (Except TaffyError Nat) × TaffyTree :=
  match new_leaf style t with
  | (.error e, t) => (.error e, t)
  | (.ok id, t) =>
    match set_children id ids t with
    | (.error e, t) => (.error e, t)
    | (.ok _, t) => (.ok id, t)

/-- Well-formedness of an arena: every stored child handle is in range. Every
tree reachable through the core's public contract satisfies this. -/
def WF (t : TaffyTree) : Prop :=
  ∀ n ∈ t.nodes, ∀ c ∈ n.children, c < t.nodes.length

instance (t : TaffyTree) : Decidable (WF t) := by
  unfold WF; infer_instance

/-- The state a build call runs in: the tree store being mutated and the store
of `Nat` cells (`Rc<RefCell<Option<NodeId>>>` memory). -/
structure BuildState where
  tree : TaffyTree
  handles : List (Option Nat)

/-- `Nat::new()`: allocate a fresh cell holding `None`. -/
def newNat (s : BuildState) : Nat × BuildState :=
  (s.handles.length, { s with handles := s.handles ++ [none] })

/-- `Nat::get()`: read the cell. -/
def getHandle (s : BuildState) (h : Nat) : Option Nat :=
  (s.handles[h]?).getD none

/-- `Nat::set(node_id)`: write the cell. -/
def setHandle (s : BuildState) (h : Nat) (id : Nat) : BuildState :=
  { s with handles := s.handles.set h (some id) }

mutual
/-- `StyleBuilder::build` (`src/style/builder.rs` lines 155-168): build the
style, create a leaf node, resolve the ref handle if any, recursively build
the children (propagating the first error), then attach them with
`set_children`. -/
def StyleBuilder.build : StyleBuilder → BuildState →
    (Except TaffyError Nat) × BuildState
  | .mk cs h fs, s =>
    let style := StyleBuilder.build_style (.mk cs h fs)
    match new_leaf style s.tree with
    | (.error e, t) => (.error e, { s with tree := t })
    | (.ok node_id, t) =>
      let s := { s with tree := t }
      let s := match h with
        | some ref_handle => setHandle s ref_handle node_id
        | none => s
      match StyleBuilderList.buildAll cs s with
      | (.error e, s) => (.error e, s)
      | (.ok children_node_ids, s) =>
        match set_children node_id children_node_ids s.tree with
        | (.error e, t) => (.error e, { s with tree := t })
        | (.ok _, t) => (.ok node_id, { s with tree := t })

/-- `self.children.iter().map(|child| child.build(tree)).collect::<Result<Vec<_>, _>>()`:
build each child in order, stopping at the first error. -/
def StyleBuilderList.buildAll : StyleBuilderList → BuildState →
    (Except TaffyError (List Nat)) × BuildState
  | .nil, s => (.ok [], s)
  | .cons c rest, s =>
    match StyleBuilder.build c s with
    | (.error e, s) => (.error e, s)
    | (.ok id, s) =>
      match StyleBuilderList.buildAll rest s with
      | (.error e, s) => (.error e, s)
      | (.ok ids, s) => (.ok (id :: ids), s)
end

/-- Modelled from the spec: the error type of the `StyleBuilder` variant used
by `StyleNode` (`crate::StyleBuilderError`), whose sources are not in the
repository snapshot; only its identity matters here. -/
inductive StyleBuilderError where
  | buildFailed (code : Nat)
deriving DecidableEq

/-- `StyleNodeError` (`src/tree/builder.rs` lines 31-35). -/
inductive StyleNodeError where
  | BuilderFailed (e : StyleBuilderError)
  | TaffyComputeError (e : TaffyError)
deriving DecidableEq

mutual
/-- `StyleNode` (`src/tree/builder.rs` lines 8-12): a nested style builder, a
list of child nodes, and an optional node-id handle. The nested builder's
fallible `build()` (its sources are not in the repository snapshot) is
modelled by the result it returns. -/
inductive StyleNode where
  | mk (style_builder : Except StyleBuilderError Style) (children : StyleNodeList)
      (node_id_handle : Option Nat)

/-- The child list of a `StyleNode` (Rust `Vec<Box<StyleNode>>`). -/
inductive StyleNodeList where
  | nil
  | cons (head : StyleNode) (tail : StyleNodeList)
end

mutual
/-- `StyleNode::build` (`src/tree/builder.rs` lines 84-101): build the style
(`?` maps its error through `StyleNodeError::BuilderFailed`), create a leaf,
resolve the node-id handle if any, build the children, and on success attach
them with `set_children`; the first error is returned unchanged. -/
def StyleNode.build : StyleNode → BuildState → (Except StyleNodeError Nat) × BuildState
  | .mk sb cs h, s =>
    match sb with
    | .error e => (.error (.BuilderFailed e), s)
    | .ok style =>
      match new_leaf style s.tree with
      | (.error e, t) => (.error (.TaffyComputeError e), { s with tree := t })
      | (.ok node_id, t) =>
        let s := { s with tree := t }
        let s := match h with
          | some node_id_handle => setHandle s node_id_handle node_id
          | none => s
        match StyleNodeList.buildAll cs s with
        | (.error e, s) => (.error e, s)
        | (.ok children_node_ids, s) =>
          match set_children node_id children_node_ids s.tree with
          | (.error e, t) => (.error (.TaffyComputeError e), { s with tree := t })
          | (.ok _, t) => (.ok node_id, { s with tree := t })

/-- `self.children.iter().map(|child| child.build(tree)).collect()` for
`StyleNode`: build each child in order, stopping at the first error. -/
def StyleNodeList.buildAll : StyleNodeList → BuildState →
    (Except StyleNodeError (List Nat)) × BuildState
  | .nil, s => (.ok [], s)
  | .cons c rest, s =>
    match StyleNode.build c s with
    | (.error e, s) => (.error e, s)
    | (.ok id, s) =>
      match StyleNodeList.buildAll rest s with
      | (.error e, s) => (.error e, s)
      | (.ok ids, s) => (.ok (id :: ids), s)
end

mutual
/-- Translate a fluent `StyleBuilder` into the closure-built `StyleNode` with
the same per-node style settings, the same handle and the same child
structure. -/
def StyleBuilder.toStyleNode : StyleBuilder → StyleNode
  | .mk cs h fs => .mk (.ok (StyleBuilder.build_style (.mk cs h fs))) cs.toStyleNodeList h

/-- Child-list version of `StyleBuilder.toStyleNode`. -/
def StyleBuilderList.toStyleNodeList : StyleBuilderList → StyleNodeList
  | .nil => .nil
  | .cons c rest => .cons c.toStyleNode rest.toStyleNodeList
end

mutual
/-- Number of builder nodes in a builder tree. -/
def StyleBuilder.nodeCount : StyleBuilder → Nat
  | .mk cs _ _ => 1 + StyleBuilderList.nodeCount cs

/-- Number of builder nodes in a builder child list. -/
def StyleBuilderList.nodeCount : StyleBuilderList → Nat
  | .nil => 0
  | .cons c rest => StyleBuilder.nodeCount c + StyleBuilderList.nodeCount rest
end

/-- The node ids assigned to the roots of a child list built in order starting
at arena index `base` (each subtree occupies a contiguous block of ids in
creation order, the root first). -/
def StyleBuilderList.rootIds : StyleBuilderList → Nat → List Nat
  | .nil, _ => []
  | .cons c rest, base => base :: StyleBuilderList.rootIds rest (base + c.nodeCount)

mutual
/-- The arena nodes a successful `StyleBuilder::build` appends, in creation
order (pre-order), when the subtree root receives id `base`. -/
def StyleBuilder.flatten : StyleBuilder → Nat → List Node
  | .mk cs h fs, base =>
    ⟨StyleBuilder.build_style (.mk cs h fs), StyleBuilderList.rootIds cs (base + 1), Geom.zero⟩ ::
      StyleBuilderList.flatten cs (base + 1)

/-- The arena nodes appended by building each child of a child list in order,
the first child's root receiving id `base`. -/
def StyleBuilderList.flatten : StyleBuilderList → Nat → List Node
  | .nil, _ => []
  | .cons c rest, base =>
    StyleBuilder.flatten c base ++ StyleBuilderList.flatten rest (base + c.nodeCount)
end

mutual
/-- The sequence of core entry points a successful `StyleBuilder::build`
invokes: `new_leaf` for the node, the children's events, then `set_children`
for the node. -/
def StyleBuilder.events : StyleBuilder → List CoreEvent
  | .mk cs _ _ => .newLeafEv :: (StyleBuilderList.events cs ++ [.setChildrenEv])

/-- The entry-point events of building each child of a child list in order. -/
def StyleBuilderList.events : StyleBuilderList → List CoreEvent
  | .nil => []
  | .cons c rest => StyleBuilder.events c ++ StyleBuilderList.events rest
end

mutual
/-- The `Nat` writes a successful `StyleBuilder::build` performs, in
order: the node's own handle (resolved right after `new_leaf`, before any
child is built), then the children's writes. -/
def StyleBuilder.updates : StyleBuilder → Nat → List (Nat × Nat)
  | .mk cs h _, base =>
    (match h with
      | some hd => [(hd, base)]
      | none => []) ++ StyleBuilderList.updates cs (base + 1)

/-- The handle writes of building each child of a child list in order. -/
def StyleBuilderList.updates : StyleBuilderList → Nat → List (Nat × Nat)
  | .nil, _ => []
  | .cons c rest, base =>
    StyleBuilder.updates c base ++ StyleBuilderList.updates rest (base + c.nodeCount)
end

mutual
/-- The attached ref handles of a builder tree, in build order (with
multiplicity). -/
def StyleBuilder.handlesList : StyleBuilder → List Nat
  | .mk cs h _ =>
    (match h with
      | some hd => [hd]
      | none => []) ++ StyleBuilderList.handlesList cs

/-- The attached ref handles of a builder child list, in build order. -/
def StyleBuilderList.handlesList : StyleBuilderList → List Nat
  | .nil => []
  | .cons c rest => StyleBuilder.handlesList c ++ StyleBuilderList.handlesList rest
end

/-- Perform a sequence of handle-cell writes on the handle store. -/
def applyUpdates (hs : List (Option Nat)) (us : List (Nat × Nat)) :
    List (Option Nat) :=
  us.foldl (fun hs u => hs.set u.1 (some u.2)) hs

/-- The optional handle-resolution step of a build: `if let Some(ref_handle) =
self.ref_handle { ref_handle.set(node_id) }`. -/
def handleStep (h : Option Nat) (id : Nat) (s : BuildState) : BuildState :=
  match h with
  | some hd => setHandle s hd id
  | none => s

mutual
/-- A pure style tree: the intended result of materializing a builder (a style
at every node and an ordered child structure). -/
inductive StyleTree where
  | node (style : Style) (children : StyleTreeList)

/-- Child list of a pure style tree. -/
inductive StyleTreeList where
  | nil
  | cons (head : StyleTree) (tail : StyleTreeList)
end

/-- View a style-tree child list as an ordinary list. -/
def StyleTreeList.toList : StyleTreeList → List StyleTree
  | .nil => []
  | .cons c rest => c :: rest.toList

mutual
/-- The style tree a builder denotes: at every node the style produced by that
node's `build_style`, with the same child structure as the builder. -/
def StyleBuilder.specTree : StyleBuilder → StyleTree
  | .mk cs h fs => .node (StyleBuilder.build_style (.mk cs h fs)) (StyleBuilderList.specTree cs)

/-- Child-list version of `StyleBuilder.specTree`. -/
def StyleBuilderList.specTree : StyleBuilderList → StyleTreeList
  | .nil => .nil
  | .cons c rest => .cons c.specTree rest.specTree
end

mutual
/-- Height of a style tree (leaves have height 1). -/
def StyleTree.height : StyleTree → Nat
  | .node _ cs => 1 + StyleTreeList.height cs

/-- Maximum height over a style-tree child list. -/
def StyleTreeList.height : StyleTreeList → Nat
  | .nil => 0
  | .cons c rest => max c.height (StyleTreeList.height rest)
end

mutual
/-- The arena rooted at `id` in `t` realizes the style tree `T`: the node
exists, carries exactly the tree's style, and its ordered child list realizes
the tree's children in order. -/
def Represents (t : TaffyTree) (id : Nat) : StyleTree → Prop
  | .node st cs => ∃ n, t.getNode? id = some n ∧ n.style = st ∧ RepresentsL t n.children cs

/-- An ordered id list realizes a style-tree child list elementwise. -/
def RepresentsL (t : TaffyTree) : List Nat → StyleTreeList → Prop
  | [], .nil => True
  | id :: ids, .cons T Ts => Represents t id T ∧ RepresentsL t ids Ts
  | _, _ => False
end

mutual
/-- Direct construction of a style tree in the core: recursively build the
children via `new_leaf` / `new_with_children`, then create the parent with
those children attached (the construction pattern of the `readme_example`
tests). -/
def StyleTree.directBuild : StyleTree → TaffyTree → (Except TaffyError Nat) × TaffyTree
  | .node st cs, t =>
    match StyleTreeList.directBuildAll cs t with
    | (.error e, t) => (.error e, t)
    | (.ok ids, t) => new_with_children st ids t

/-- Directly build each child of a style-tree child list in order. -/
def StyleTreeList.directBuildAll : StyleTreeList → TaffyTree →
    (Except TaffyError (List Nat)) × TaffyTree
  | .nil, t => (.ok [], t)
  | .cons c rest, t =>
    match StyleTree.directBuild c t with
    | (.error e, t) => (.error e, t)
    | (.ok id, t) =>
      match StyleTreeList.directBuildAll rest t with
      | (.error e, t) => (.error e, t)
      | (.ok ids, t) => (.ok (id :: ids), t)
end

mutual
/-- Attachment count of a ref handle in a `StyleNode` tree. -/
def StyleNode.handlesList : StyleNode → List Nat
  | .mk _ cs h =>
    (match h with
      | some hd => [hd]
      | none => []) ++ StyleNodeList.handlesList cs

/-- Attached handles of a `StyleNode` child list, in build order. -/
def StyleNodeList.handlesList : StyleNodeList → List Nat
  | .nil => []
  | .cons c rest => StyleNode.handlesList c ++ StyleNodeList.handlesList rest
end

/-- `c` occurs as a subtree of the builder `b` (reflexively, or inside one of
the children). -/
inductive IsSub : StyleBuilder → StyleBuilder → Prop where
  | refl (b : StyleBuilder) : IsSub b b
  | step (c b d : StyleBuilder) : c ∈ b.children.toList → IsSub d c → IsSub d b

lemma fields_applyCall (b : StyleBuilder) (c : SetterCall) :
    (applyCall b c).fields = recordCall b.fields c := by
  cases b
  cases c <;> rfl

lemma fields_applyCalls (calls : List SetterCall) : ∀ b : StyleBuilder,
    (applyCalls b calls).fields = calls.foldl recordCall b.fields := by
  induction calls with
  | nil => intro b; rfl
  | cons c rest ih =>
    intro b
    show (applyCalls (applyCall b c) rest).fields = _
    rw [ih, fields_applyCall]
    rfl

/-- C1: the builder is pure field assignment. For an arbitrary sequence of
setter calls on a fresh builder, `build_style` returns, for every style field,
the most recently set value when the field's setter was called at least once
(`lastSet`), and the `Style::default()` field otherwise; in particular
`StyleBuilder::default().build_style()` equals `Style::default()`. -/
theorem builder_is_pure_field_assignment :
    (∀ calls : List SetterCall,
      (applyCalls StyleBuilder.new calls).build_style = styleFromLastSet (lastSet calls)) ∧
    StyleBuilder.default.build_style = Style.default := by
  constructor
  · intro calls
    have h : (applyCalls StyleBuilder.new calls).fields = calls.foldl recordCall {} :=
      fields_applyCalls calls StyleBuilder.new
    show styleFromLastSet (applyCalls StyleBuilder.new calls).fields = _
    rw [h]
    rfl
  · rfl

/-- C10: `StyleBuilder::row()` yields `Style::default()` with only
`flex_direction` replaced by `Row`, and `StyleBuilder::column()` the same with
`Column`; every other field is unchanged. -/
theorem row_column_only_set_flex_direction :
    StyleBuilder.row.build_style = { Style.default with flex_direction := .Row } ∧
    StyleBuilder.column.build_style = { Style.default with flex_direction := .Column } :=
  ⟨rfl, rfl⟩

lemma nodeCount_pos (b : StyleBuilder) : 1 ≤ b.nodeCount := by
  cases b with
  | mk cs h fs => show 1 ≤ 1 + _; omega

mutual
theorem flatten_length : ∀ (b : StyleBuilder) (base : Nat),
    (StyleBuilder.flatten b base).length = b.nodeCount
  | .mk cs h fs, base => by
    show (_ :: StyleBuilderList.flatten cs (base + 1)).length = 1 + _
    rw [List.length_cons, flattenList_length cs (base + 1)]
    omega

theorem flattenList_length : ∀ (cs : StyleBuilderList) (base : Nat),
    (StyleBuilderList.flatten cs base).length = cs.nodeCount
  | .nil, _ => rfl
  | .cons c rest, base => by
    show (StyleBuilder.flatten c base ++ _).length = _
    rw [List.length_append, flatten_length c base,
      flattenList_length rest (base + c.nodeCount)]
    rfl
end

lemma rootIds_mem : ∀ (cs : StyleBuilderList) (base r : Nat),
    r ∈ StyleBuilderList.rootIds cs base → base ≤ r ∧ r < base + cs.nodeCount
  | .nil, base, r => by intro hr; cases hr
  | .cons c rest, base, r => by
    intro hr
    show base ≤ r ∧ r < base + (c.nodeCount + rest.nodeCount)
    rcases List.mem_cons.1 hr with h | h
    · subst h
      have := nodeCount_pos c
      omega
    · have := rootIds_mem rest (base + c.nodeCount) r h
      omega

mutual
theorem flatten_children_range : ∀ (b : StyleBuilder) (base : Nat), ∀ n ∈ StyleBuilder.flatten b base,
    ∀ c ∈ n.children, base < c ∧ c < base + b.nodeCount
  | .mk cs h fs, base => by
    intro n hn c hc
    show base < c ∧ c < base + (1 + cs.nodeCount)
    rcases List.mem_cons.1 hn with h' | h'
    · subst h'
      have := rootIds_mem cs (base + 1) c hc
      omega
    · have := flattenList_children_range cs (base + 1) n h' c hc
      omega

theorem flattenList_children_range : ∀ (cs : StyleBuilderList) (base : Nat),
    ∀ n ∈ StyleBuilderList.flatten cs base,
    ∀ c ∈ n.children, base < c ∧ c < base + cs.nodeCount
  | .nil, _ => by intro n hn; cases hn
  | .cons c₀ rest, base => by
    intro n hn c hc
    show base < c ∧ c < base + (c₀.nodeCount + rest.nodeCount)
    rcases List.mem_append.1 hn with h' | h'
    · have := flatten_children_range c₀ base n h' c hc
      omega
    · have := flattenList_children_range rest (base + c₀.nodeCount) n h' c hc
      omega
end

lemma roots_not_children : ∀ (cs : StyleBuilderList) (base : Nat),
    ∀ n ∈ StyleBuilderList.flatten cs base, ∀ c ∈ n.children,
    c ∉ StyleBuilderList.rootIds cs base
  | .nil, base => by intro n hn; cases hn
  | .cons c₀ rest, base => by
    intro n hn c hc hmem
    rcases List.mem_cons.1 hmem with h' | h'
    · rcases List.mem_append.1 hn with h'' | h''
      · have := (flatten_children_range c₀ base n h'' c hc).1
        omega
      · have := flattenList_children_range rest (base + c₀.nodeCount) n h'' c hc
        have := nodeCount_pos c₀
        omega
    · rcases List.mem_append.1 hn with h'' | h''
      · have h₁ := (flatten_children_range c₀ base n h'' c hc).2
        have h₂ := rootIds_mem rest (base + c₀.nodeCount) c h'
        omega
      · exact roots_not_children rest (base + c₀.nodeCount) n h'' c hc h'

lemma wf_ext {ns ext : List Node} {lg lg' : List CoreEvent} (h₁ : WF ⟨ns, lg⟩)
    (h₂ : ∀ n ∈ ext, ∀ c ∈ n.children, c < ns.length + ext.length) :
    WF ⟨ns ++ ext, lg'⟩ := by
  intro n hn c hc
  show c < (ns ++ ext).length
  rw [List.length_append]
  rcases List.mem_append.1 hn with h' | h'
  · have h₃ : c < ns.length := h₁ n h' c hc
    omega
  · exact h₂ n h' c hc

lemma wf_append_leaf {ns : List Node} {lg lg' : List CoreEvent} (st : Style)
    (h₁ : WF ⟨ns, lg⟩) : WF ⟨ns ++ [⟨st, [], Geom.zero⟩], lg'⟩ := by
  refine wf_ext h₁ ?_
  intro n hn c hc
  rcases List.mem_singleton.1 hn with h'
  subst h'
  cases hc

lemma wf_append_flattenList {ns : List Node} {lg lg' : List CoreEvent} (cs : StyleBuilderList)
    (h₁ : WF ⟨ns, lg⟩) : WF ⟨ns ++ StyleBuilderList.flatten cs ns.length, lg'⟩ := by
  refine wf_ext h₁ ?_
  intro n hn c hc
  have := flattenList_children_range cs ns.length n hn c hc
  rw [flattenList_length]
  omega

lemma wf_append_flatten {ns : List Node} {lg lg' : List CoreEvent} (b : StyleBuilder)
    (h₁ : WF ⟨ns, lg⟩) : WF ⟨ns ++ StyleBuilder.flatten b ns.length, lg'⟩ := by
  refine wf_ext h₁ ?_
  intro n hn c hc
  have := flatten_children_range b ns.length n hn c hc
  rw [flatten_length]
  omega

lemma reaches_eq_false {t : TaffyTree} {dst : Nat}
    (hnc : ∀ n ∈ t.nodes, dst ∉ n.children) :
    ∀ (fuel : Nat) (src : Nat), src ≠ dst → reaches t fuel src dst = false := by
  intro fuel
  induction fuel with
  | zero => intro src _; rfl
  | succ fuel ih =>
    intro src hne
    show (src == dst || _) = false
    rw [Bool.or_eq_false_iff]
    refine ⟨by simp [hne], ?_⟩
    cases hg : t.getNode? src with
    | none => rfl
    | some n =>
      rw [List.any_eq_false]
      intro c hc
      have hmem : n ∈ t.nodes := List.getElem?_mem hg
      have : c ≠ dst := fun he => hnc n hmem (he ▸ hc)
      simp [ih c this]

lemma parent_of_eq_none {t : TaffyTree} {c : Nat}
    (h : ∀ n ∈ t.nodes, c ∉ n.children) : parent_of t c = none := by
  rw [parent_of, List.findIdx?_eq_none_iff]
  intro n hn
  simpa using h n hn

lemma set_append_middle {α : Type} (xs : List α) (a b : α) (ys : List α) :
    (xs ++ a :: ys).set xs.length b = xs ++ b :: ys := by
  induction xs with
  | nil => rfl
  | cons x xs ih => simp [List.set, ih]

lemma applyUpdates_append (hs : List (Option Nat)) (u v : List (Nat × Nat)) :
    applyUpdates hs (u ++ v) = applyUpdates (applyUpdates hs u) v := by
  simp [applyUpdates, List.foldl_append]

lemma applyUpdates_length (hs : List (Option Nat)) (us : List (Nat × Nat)) :
    (applyUpdates hs us).length = hs.length := by
  induction us generalizing hs with
  | nil => rfl
  | cons u rest ih =>
    show (applyUpdates (hs.set u.1 (some u.2)) rest).length = _
    rw [ih, List.length_set]

lemma getElem?_append_middle {α : Type} (xs : List α) (a : α) (ys : List α) :
    (xs ++ a :: ys)[xs.length]? = some a := by
  rw [List.getElem?_append_right (Nat.le_refl _)]
  simp

lemma set_children_built (old : List Node) (lg lg₀ : List CoreEvent) (st : Style)
    (cs : StyleBuilderList)
    (hold : WF ⟨old, lg₀⟩) :
    set_children old.length (StyleBuilderList.rootIds cs (old.length + 1))
        ⟨old ++ ⟨st, [], Geom.zero⟩ :: StyleBuilderList.flatten cs (old.length + 1), lg⟩ =
      (.ok (), ⟨old ++ ⟨st, StyleBuilderList.rootIds cs (old.length + 1), Geom.zero⟩ ::
          StyleBuilderList.flatten cs (old.length + 1), lg ++ [.setChildrenEv]⟩) := by
  have hold' : ∀ n ∈ old, ∀ c ∈ n.children, c < old.length := hold
  have hlen : (old ++ ⟨st, [], Geom.zero⟩ ::
      StyleBuilderList.flatten cs (old.length + 1) : List Node).length
      = old.length + 1 + cs.nodeCount := by
    rw [List.length_append, List.length_cons, flattenList_length]
    omega
  have hmem_split : ∀ n ∈ (old ++ ⟨st, [], Geom.zero⟩ ::
      StyleBuilderList.flatten cs (old.length + 1) : List Node),
      n ∈ old ∨ n = ⟨st, [], Geom.zero⟩ ∨ n ∈ StyleBuilderList.flatten cs (old.length + 1) := by
    intro n hn
    rcases List.mem_append.1 hn with h' | h'
    · exact Or.inl h'
    · rcases List.mem_cons.1 h' with h'' | h''
      · exact Or.inr (Or.inl h'')
      · exact Or.inr (Or.inr h'')
  have h₂ : (StyleBuilderList.rootIds cs (old.length + 1)).any
      (fun c => decide ((old ++ ⟨st, [], Geom.zero⟩ ::
        StyleBuilderList.flatten cs (old.length + 1) : List Node).length ≤ c)) = false := by
    rw [List.any_eq_false]
    intro r hr
    have := rootIds_mem cs (old.length + 1) r hr
    rw [hlen]
    simp only [decide_eq_true_eq]
    omega
  have h₃ : ∀ lg' : List CoreEvent, (StyleBuilderList.rootIds cs (old.length + 1)).any
      (fun c => match parent_of ⟨old ++ ⟨st, [], Geom.zero⟩ ::
          StyleBuilderList.flatten cs (old.length + 1), lg'⟩ c with
        | some p => p != old.length
        | none => false) = false := by
    intro lg'
    rw [List.any_eq_false]
    intro r hr
    have hrb := rootIds_mem cs (old.length + 1) r hr
    have hp : parent_of ⟨old ++ ⟨st, [], Geom.zero⟩ ::
        StyleBuilderList.flatten cs (old.length + 1), lg'⟩ r = none := by
      refine parent_of_eq_none ?_
      intro n hn hmem
      rcases hmem_split n hn with h' | h' | h'
      · have := hold' n h' _ hmem
        omega
      · subst h'
        cases hmem
      · exact roots_not_children cs (old.length + 1) n h' r hmem hr
    rw [hp]
    simp
  have h₄ : ∀ (lg' : List CoreEvent) (fuel : Nat),
      (StyleBuilderList.rootIds cs (old.length + 1)).any
        (fun c => reaches ⟨old ++ ⟨st, [], Geom.zero⟩ ::
          StyleBuilderList.flatten cs (old.length + 1), lg'⟩ fuel c old.length) = false := by
    intro lg' fuel
    rw [List.any_eq_false]
    intro r hr
    have hrb := rootIds_mem cs (old.length + 1) r hr
    simp only [Bool.not_eq_true]
    refine reaches_eq_false ?_ fuel r (by omega)
    intro n hn hmem
    rcases hmem_split n hn with h' | h' | h'
    · have := hold' n h' _ hmem
      omega
    · subst h'
      cases hmem
    · have := flattenList_children_range cs (old.length + 1) n h' _ hmem
      omega
  simp only [set_children, logEvent]
  rw [if_neg (by rw [hlen]; omega)]
  rw [if_neg (by rw [h₂]; exact Bool.false_ne_true)]
  rw [if_neg (by rw [h₃ (lg ++ [CoreEvent.setChildrenEv])]; exact Bool.false_ne_true)]
  rw [if_neg (by rw [h₄ (lg ++ [CoreEvent.setChildrenEv]) _]; exact Bool.false_ne_true)]
  rw [show (⟨old ++ ⟨st, [], Geom.zero⟩ :: StyleBuilderList.flatten cs (old.length + 1),
      lg ++ [.setChildrenEv]⟩ : TaffyTree).nodes[old.length]? = some ⟨st, [], Geom.zero⟩ from
    getElem?_append_middle old _ _]
  show (Except.ok (), (⟨(old ++ ⟨st, [], Geom.zero⟩ ::
      StyleBuilderList.flatten cs (old.length + 1)).set old.length
        ⟨st, StyleBuilderList.rootIds cs (old.length + 1), Geom.zero⟩,
      lg ++ [CoreEvent.setChildrenEv]⟩ : TaffyTree)) = _
  rw [set_append_middle old _ _ _]

mutual
theorem build_char : ∀ (b : StyleBuilder) (s : BuildState), WF s.tree →
    StyleBuilder.build b s =
      (.ok s.tree.nodes.length,
       ⟨⟨s.tree.nodes ++ StyleBuilder.flatten b s.tree.nodes.length,
         s.tree.log ++ StyleBuilder.events b⟩,
        applyUpdates s.handles (StyleBuilder.updates b s.tree.nodes.length)⟩)
  | .mk cs h fs, s => by
    intro hwf
    cases h with
    | none =>
      have hwf₁ : WF (⟨s.tree.nodes ++
          [⟨StyleBuilder.build_style (.mk cs none fs), [], Geom.zero⟩],
          s.tree.log ++ [CoreEvent.newLeafEv]⟩ : TaffyTree) :=
        wf_append_leaf _ hwf
      have hall := buildAll_char cs
        ⟨⟨s.tree.nodes ++ [⟨StyleBuilder.build_style (.mk cs none fs), [], Geom.zero⟩],
          s.tree.log ++ [CoreEvent.newLeafEv]⟩, s.handles⟩ hwf₁
      dsimp only at hall
      rw [show (s.tree.nodes ++
          [(⟨StyleBuilder.build_style (.mk cs none fs), [], Geom.zero⟩ : Node)]).length
          = s.tree.nodes.length + 1 from by simp] at hall
      simp only [List.append_assoc, List.singleton_append] at hall
      show (match StyleBuilderList.buildAll cs
          ⟨⟨s.tree.nodes ++ [⟨StyleBuilder.build_style (.mk cs none fs), [], Geom.zero⟩],
            s.tree.log ++ [CoreEvent.newLeafEv]⟩, s.handles⟩ with
        | (.error e, s₃) => ((.error e : Except TaffyError Nat), s₃)
        | (.ok ids, s₃) =>
          match set_children s.tree.nodes.length ids s₃.tree with
          | (.error e, t') => (.error e, { s₃ with tree := t' })
          | (.ok _, t') => (.ok s.tree.nodes.length, { s₃ with tree := t' })) = _
      rw [hall]
      dsimp only
      rw [set_children_built s.tree.nodes _ s.tree.log _ cs hwf]
      dsimp only
      show (Except.ok s.tree.nodes.length,
          (⟨⟨s.tree.nodes ++ ⟨StyleBuilder.build_style (.mk cs none fs),
              StyleBuilderList.rootIds cs (s.tree.nodes.length + 1), Geom.zero⟩ ::
              StyleBuilderList.flatten cs (s.tree.nodes.length + 1),
            (s.tree.log ++ CoreEvent.newLeafEv :: StyleBuilderList.events cs) ++
              [CoreEvent.setChildrenEv]⟩,
           applyUpdates s.handles
             (StyleBuilderList.updates cs (s.tree.nodes.length + 1))⟩ : BuildState)) = _
      simp only [List.append_assoc, List.cons_append]
      rfl
    | some hd =>
      have hwf₁ : WF (⟨s.tree.nodes ++
          [⟨StyleBuilder.build_style (.mk cs (some hd) fs), [], Geom.zero⟩],
          s.tree.log ++ [CoreEvent.newLeafEv]⟩ : TaffyTree) :=
        wf_append_leaf _ hwf
      have hall := buildAll_char cs
        ⟨⟨s.tree.nodes ++ [⟨StyleBuilder.build_style (.mk cs (some hd) fs), [], Geom.zero⟩],
          s.tree.log ++ [CoreEvent.newLeafEv]⟩,
         s.handles.set hd (some s.tree.nodes.length)⟩ hwf₁
      dsimp only at hall
      rw [show (s.tree.nodes ++
          [(⟨StyleBuilder.build_style (.mk cs (some hd) fs), [], Geom.zero⟩ : Node)]).length
          = s.tree.nodes.length + 1 from by simp] at hall
      simp only [List.append_assoc, List.singleton_append] at hall
      show (match StyleBuilderList.buildAll cs
          ⟨⟨s.tree.nodes ++ [⟨StyleBuilder.build_style (.mk cs (some hd) fs), [], Geom.zero⟩],
            s.tree.log ++ [CoreEvent.newLeafEv]⟩,
           s.handles.set hd (some s.tree.nodes.length)⟩ with
        | (.error e, s₃) => ((.error e : Except TaffyError Nat), s₃)
        | (.ok ids, s₃) =>
          match set_children s.tree.nodes.length ids s₃.tree with
          | (.error e, t') => (.error e, { s₃ with tree := t' })
          | (.ok _, t') => (.ok s.tree.nodes.length, { s₃ with tree := t' })) = _
      rw [hall]
      dsimp only
      rw [set_children_built s.tree.nodes _ s.tree.log _ cs hwf]
      dsimp only
      show (Except.ok s.tree.nodes.length,
          (⟨⟨s.tree.nodes ++ ⟨StyleBuilder.build_style (.mk cs (some hd) fs),
              StyleBuilderList.rootIds cs (s.tree.nodes.length + 1), Geom.zero⟩ ::
              StyleBuilderList.flatten cs (s.tree.nodes.length + 1),
            (s.tree.log ++ CoreEvent.newLeafEv :: StyleBuilderList.events cs) ++
              [CoreEvent.setChildrenEv]⟩,
           applyUpdates (s.handles.set hd (some s.tree.nodes.length))
             (StyleBuilderList.updates cs (s.tree.nodes.length + 1))⟩ : BuildState)) = _
      simp only [List.append_assoc, List.cons_append]
      rfl

theorem buildAll_char : ∀ (cs : StyleBuilderList) (s : BuildState), WF s.tree →
    StyleBuilderList.buildAll cs s =
      (.ok (StyleBuilderList.rootIds cs s.tree.nodes.length),
       ⟨⟨s.tree.nodes ++ StyleBuilderList.flatten cs s.tree.nodes.length,
         s.tree.log ++ StyleBuilderList.events cs⟩,
        applyUpdates s.handles (StyleBuilderList.updates cs s.tree.nodes.length)⟩)
  | .nil, s => by
    intro _
    show ((.ok [], s) :
        (Except TaffyError (List Nat)) × BuildState) = _
    simp only [StyleBuilderList.rootIds, StyleBuilderList.flatten, StyleBuilderList.events,
      StyleBuilderList.updates, List.append_nil]
    rfl
  | .cons c rest, s => by
    intro hwf
    have h₁ := build_char c s hwf
    show (match StyleBuilder.build c s with
      | (.error e, s') => ((.error e : Except TaffyError (List Nat)), s')
      | (.ok id, s') =>
        match StyleBuilderList.buildAll rest s' with
        | (.error e, s'') => (.error e, s'')
        | (.ok ids, s'') => (.ok (id :: ids), s'')) = _
    rw [h₁]
    dsimp only
    have hwf₂ : WF (⟨s.tree.nodes ++ StyleBuilder.flatten c s.tree.nodes.length,
        s.tree.log ++ StyleBuilder.events c⟩ : TaffyTree) :=
      wf_append_flatten c hwf
    have h₂ := buildAll_char rest
      ⟨⟨s.tree.nodes ++ StyleBuilder.flatten c s.tree.nodes.length,
        s.tree.log ++ StyleBuilder.events c⟩,
       applyUpdates s.handles (StyleBuilder.updates c s.tree.nodes.length)⟩ hwf₂
    dsimp only at h₂
    rw [show (s.tree.nodes ++ StyleBuilder.flatten c s.tree.nodes.length).length
        = s.tree.nodes.length + c.nodeCount from by
      rw [List.length_append, flatten_length]] at h₂
    rw [h₂]
    show (Except.ok (s.tree.nodes.length ::
        StyleBuilderList.rootIds rest (s.tree.nodes.length + c.nodeCount)),
        (⟨⟨(s.tree.nodes ++ StyleBuilder.flatten c s.tree.nodes.length) ++
            StyleBuilderList.flatten rest (s.tree.nodes.length + c.nodeCount),
          (s.tree.log ++ StyleBuilder.events c) ++ StyleBuilderList.events rest⟩,
         applyUpdates (applyUpdates s.handles (StyleBuilder.updates c s.tree.nodes.length))
           (StyleBuilderList.updates rest (s.tree.nodes.length + c.nodeCount))⟩ : BuildState)) = _
    rw [← applyUpdates_append]
    simp only [List.append_assoc]
    rfl
end

lemma lt_length_of_getElem? {α : Type} {l : List α} {i : Nat} {a : α}
    (h : l[i]? = some a) : i < l.length := by
  by_contra hge
  rw [List.getElem?_eq_none (by omega)] at h
  cases h

mutual
theorem represents_flatten : ∀ (b : StyleBuilder) (pre post : List Node) (lg : List CoreEvent)
    (base : Nat), pre.length = base →
    Represents ⟨pre ++ (StyleBuilder.flatten b base ++ post), lg⟩ base b.specTree
  | .mk cs h fs, pre, post, lg, base => by
    intro hpre
    show ∃ n, (⟨pre ++ (StyleBuilder.flatten (.mk cs h fs) base ++ post), lg⟩ :
        TaffyTree).getNode? base = some n ∧
      n.style = StyleBuilder.build_style (.mk cs h fs) ∧
      RepresentsL _ n.children (StyleBuilderList.specTree cs)
    refine ⟨⟨StyleBuilder.build_style (.mk cs h fs),
      StyleBuilderList.rootIds cs (base + 1), Geom.zero⟩, ?_, rfl, ?_⟩
    · show (pre ++ (_ :: _))[base]? = _
      subst hpre
      exact getElem?_append_middle pre _ _
    · have hL := representsL_flattenList cs (pre ++
        [⟨StyleBuilder.build_style (.mk cs h fs), StyleBuilderList.rootIds cs (base + 1),
          Geom.zero⟩]) post lg (base + 1) (by simp [hpre])
      rw [show ((pre ++ [(⟨StyleBuilder.build_style (.mk cs h fs),
          StyleBuilderList.rootIds cs (base + 1), Geom.zero⟩ : Node)]) ++
          (StyleBuilderList.flatten cs (base + 1) ++ post)) =
        pre ++ (⟨StyleBuilder.build_style (.mk cs h fs),
          StyleBuilderList.rootIds cs (base + 1), Geom.zero⟩ ::
            (StyleBuilderList.flatten cs (base + 1) ++ post)) from by simp] at hL
      exact hL

theorem representsL_flattenList : ∀ (cs : StyleBuilderList) (pre post : List Node)
    (lg : List CoreEvent) (base : Nat), pre.length = base →
    RepresentsL ⟨pre ++ (StyleBuilderList.flatten cs base ++ post), lg⟩
      (StyleBuilderList.rootIds cs base) (StyleBuilderList.specTree cs)
  | .nil, pre, post, lg, base => by
    intro _
    show True
    trivial
  | .cons c rest, pre, post, lg, base => by
    intro hpre
    show Represents _ base c.specTree ∧ RepresentsL _ _ (StyleBuilderList.specTree rest)
    constructor
    · have h₁ := represents_flatten c pre (StyleBuilderList.flatten rest (base + c.nodeCount)
        ++ post) lg base hpre
      rw [show (pre ++ (StyleBuilder.flatten c base ++
          (StyleBuilderList.flatten rest (base + c.nodeCount) ++ post))) =
        pre ++ ((StyleBuilder.flatten c base ++
          StyleBuilderList.flatten rest (base + c.nodeCount)) ++ post) from by simp] at h₁
      exact h₁
    · have h₂ := representsL_flattenList rest (pre ++ StyleBuilder.flatten c base) post lg
        (base + c.nodeCount) (by rw [List.length_append, flatten_length, hpre])
      rw [show ((pre ++ StyleBuilder.flatten c base) ++
          (StyleBuilderList.flatten rest (base + c.nodeCount) ++ post)) =
        pre ++ ((StyleBuilder.flatten c base ++
          StyleBuilderList.flatten rest (base + c.nodeCount)) ++ post) from by simp] at h₂
      exact h₂
end

mutual
theorem represents_stable : ∀ (T : StyleTree) (t t' : TaffyTree) (id : Nat),
    (∀ i, i < t.nodes.length → t'.nodes[i]? = t.nodes[i]?) →
    Represents t id T → Represents t' id T
  | .node st cs, t, t', id => by
    intro hpres hrep
    obtain ⟨n, hget, hstyle, hchildren⟩ := hrep
    have hid : id < t.nodes.length := lt_length_of_getElem? hget
    exact ⟨n, by rw [show (t'.getNode? id) = t'.nodes[id]? from rfl, hpres id hid]; exact hget,
      hstyle, representsL_stable cs t t' n.children hpres hchildren⟩

theorem representsL_stable : ∀ (Ts : StyleTreeList) (t t' : TaffyTree) (ids : List Nat),
    (∀ i, i < t.nodes.length → t'.nodes[i]? = t.nodes[i]?) →
    RepresentsL t ids Ts → RepresentsL t' ids Ts
  | .nil, t, t', ids => by
    intro hpres hrep
    cases ids with
    | nil => trivial
    | cons a as => exact absurd hrep (by intro h; exact h)
  | .cons T Ts, t, t', ids => by
    intro hpres hrep
    cases ids with
    | nil => exact absurd hrep (by intro h; exact h)
    | cons a as =>
      obtain ⟨h₁, h₂⟩ := hrep
      exact ⟨represents_stable T t t' a hpres h₁, representsL_stable Ts t t' as hpres h₂⟩
end

/-- Modelled from the spec (section 6): the per-axis sizing intent passed into
a layout call. -/
inductive AvailableSpace where
  | Definite (value : F32)
  | MinContent
  | MaxContent
deriving DecidableEq

mutual
/-- A tree of per-node layout outputs, one per node of the laid-out subtree. -/
inductive GeomTree where
  | node (geom : Geom) (children : GeomTreeList)

/-- Child list of a geometry tree. -/
inductive GeomTreeList where
  | nil
  | cons (head : GeomTree) (tail : GeomTreeList)
end

/-- The geometry of the root of a geometry tree. -/
def GeomTree.rootGeom : GeomTree → Geom
  | .node g _ => g

/-- The geometries of the roots of a geometry-tree list. -/
def GeomTreeList.rootGeoms : GeomTreeList → List Geom
  | .nil => []
  | .cons g gs => g.rootGeom :: gs.rootGeoms

mutual
/-- Modelled from the spec (section 5): layout computation is a pure recursive
function of the tree snapshot and the root constraint. The per-node
constraint-resolution recipe is abstracted by two parameters: `F` computes a
node's geometry from its style, its available space and its children's
geometries, and `CA` derives the children's available space; the recursion
itself (fuelled by the configurable maximum depth of section 5) reads only
styles and child edges. -/
def computeGeomTree (F : Style → AvailableSpace → List Geom → Geom)
    (CA : Style → AvailableSpace → AvailableSpace) :
    Nat → TaffyTree → Nat → AvailableSpace → Option GeomTree
  | 0, _, _, _ => none
  | fuel + 1, t, id, av =>
    match t.getNode? id with
    | none => none
    | some n =>
      match computeGeomList F CA fuel t n.children (CA n.style av) with
      | none => none
      | some gts => some (.node (F n.style av gts.rootGeoms) gts)
  termination_by fuel t id av => (fuel, 0)

/-- Layout of an ordered child list (see `computeGeomTree`). -/
def computeGeomList (F : Style → AvailableSpace → List Geom → Geom)
    (CA : Style → AvailableSpace → AvailableSpace) :
    Nat → TaffyTree → List Nat → AvailableSpace → Option GeomTreeList
  | _, _, [], _ => some .nil
  | fuel, t, c :: rest, av =>
    match computeGeomTree F CA fuel t c av with
    | none => none
    | some gt =>
      match computeGeomList F CA fuel t rest av with
      | none => none
      | some gts => some (.cons gt gts)
  termination_by fuel t l av => (fuel, l.length + 1)
end

mutual
/-- The reference geometry of a pure style tree under the same abstract
per-node recipe `F` / `CA` (no arena, no fuel). -/
def geomTreeOf (F : Style → AvailableSpace → List Geom → Geom)
    (CA : Style → AvailableSpace → AvailableSpace) : StyleTree → AvailableSpace → GeomTree
  | .node st cs, av =>
    .node (F st av (geomListOf F CA cs (CA st av)).rootGeoms) (geomListOf F CA cs (CA st av))

/-- Reference geometry of a style-tree child list. -/
def geomListOf (F : Style → AvailableSpace → List Geom → Geom)
    (CA : Style → AvailableSpace → AvailableSpace) : StyleTreeList → AvailableSpace →
    GeomTreeList
  | .nil, _ => .nil
  | .cons c rest, av => .cons (geomTreeOf F CA c av) (geomListOf F CA rest av)
end

mutual
theorem represents_geom : ∀ (fuel : Nat) (T : StyleTree) (t : TaffyTree) (id : Nat)
    (av : AvailableSpace) (F : Style → AvailableSpace → List Geom → Geom)
    (CA : Style → AvailableSpace → AvailableSpace),
    Represents t id T → T.height ≤ fuel →
    computeGeomTree F CA fuel t id av = some (geomTreeOf F CA T av)
  | fuel, .node st cs, t, id, av, F, CA => by
    intro hrep hh
    obtain ⟨n, hget, hstyle, hchildren⟩ := hrep
    cases fuel with
    | zero =>
      exact absurd hh (by show ¬ 1 + _ ≤ 0; omega)
    | succ fuel =>
      have hh' : StyleTreeList.height cs ≤ fuel := by
        have : StyleTree.height (.node st cs) = 1 + StyleTreeList.height cs := rfl
        omega
      simp only [computeGeomTree]
      rw [hget]
      simp only []
      rw [representsL_geom fuel cs t n.children (CA n.style av) F CA hchildren hh']
      rw [hstyle]
      rfl
  termination_by fuel T t id av F CA => (fuel, 0)

theorem representsL_geom : ∀ (fuel : Nat) (Ts : StyleTreeList) (t : TaffyTree)
    (ids : List Nat) (av : AvailableSpace) (F : Style → AvailableSpace → List Geom → Geom)
    (CA : Style → AvailableSpace → AvailableSpace),
    RepresentsL t ids Ts → StyleTreeList.height Ts ≤ fuel →
    computeGeomList F CA fuel t ids av = some (geomListOf F CA Ts av)
  | fuel, .nil, t, ids, av, F, CA => by
    intro hrep _
    cases ids with
    | nil =>
      simp only [computeGeomList]
      rfl
    | cons a as => exact absurd hrep (by intro h; exact h)
  | fuel, .cons T Ts, t, ids, av, F, CA => by
    intro hrep hh
    cases ids with
    | nil => exact absurd hrep (by intro h; exact h)
    | cons a as =>
      obtain ⟨h₁, h₂⟩ := hrep
      have hhT : T.height ≤ fuel := by
        have : StyleTreeList.height (.cons T Ts) = max T.height Ts.height := rfl
        omega
      have hhTs : StyleTreeList.height Ts ≤ fuel := by
        have : StyleTreeList.height (.cons T Ts) = max T.height Ts.height := rfl
        omega
      simp only [computeGeomList]
      rw [represents_geom fuel T t a av F CA h₁ hhT,
        representsL_geom fuel Ts t as av F CA h₂ hhTs]
      rfl
  termination_by fuel Ts t ids av F CA => (fuel, sizeOf Ts)
end

lemma getElem?_append_left {α : Type} {l₁ l₂ : List α} {n : Nat} (h : n < l₁.length) :
    (l₁ ++ l₂)[n]? = l₁[n]? := by
  rw [List.getElem?_append]
  simp [h]

lemma exists_index_of_mem {α : Type} {l : List α} {a : α} (h : a ∈ l) :
    ∃ i : Nat, l[i]? = some a := by
  obtain ⟨i, hi, he⟩ := List.mem_iff_getElem.1 h
  exact ⟨i, by rw [List.getElem?_eq_getElem hi]; rw [he]⟩

lemma set_children_ok {t : TaffyTree} {id : Nat} {ids : List Nat} {n₀ : Node}
    (hid : t.nodes[id]? = some n₀)
    (hvalid : ∀ r ∈ ids, r < t.nodes.length)
    (hnoparent : ∀ r ∈ ids, ∀ n ∈ t.nodes, r ∉ n.children)
    (hnochild : ∀ n ∈ t.nodes, id ∉ n.children)
    (hnotself : ∀ r ∈ ids, r ≠ id) :
    set_children id ids t = (.ok (), ⟨t.nodes.set id { n₀ with children := ids },
      t.log ++ [.setChildrenEv]⟩) := by
  have hidlt : id < t.nodes.length := lt_length_of_getElem? hid
  simp only [set_children, logEvent]
  rw [if_neg (by omega)]
  rw [if_neg (by
    rw [show ((ids.any fun c => decide (t.nodes.length ≤ c)) = true) = False from
      eq_false ?_]
    · exact not_false
    · rw [Bool.not_eq_true, List.any_eq_false]
      intro r hr
      have := hvalid r hr
      simp only [decide_eq_true_eq]
      omega)]
  rw [if_neg (by
    rw [Bool.not_eq_true, List.any_eq_false]
    intro r hr
    have hp : parent_of ⟨t.nodes, t.log ++ [CoreEvent.setChildrenEv]⟩ r = none :=
      parent_of_eq_none (hnoparent r hr)
    rw [hp]
    simp)]
  rw [if_neg (by
    rw [Bool.not_eq_true, List.any_eq_false]
    intro r hr
    simp only [Bool.not_eq_true]
    refine reaches_eq_false ?_ _ r (hnotself r hr)
    exact hnochild)]
  rw [show ((⟨t.nodes, t.log ++ [CoreEvent.setChildrenEv]⟩ : TaffyTree).nodes)[id]? =
    some n₀ from hid]

mutual
theorem direct_char : ∀ (T : StyleTree) (t : TaffyTree), WF t →
    ∃ id t', StyleTree.directBuild T t = (.ok id, t') ∧
      t'.nodes.length = id + 1 ∧
      t.nodes.length ≤ id ∧
      (∀ i, i < t.nodes.length → t'.nodes[i]? = t.nodes[i]?) ∧
      WF t' ∧
      (∀ j n, t'.nodes[j]? = some n → t.nodes.length ≤ j →
        ∀ c ∈ n.children, t.nodes.length ≤ c ∧ c < j) ∧
      (∀ n ∈ t'.nodes, id ∉ n.children) ∧
      Represents t' id T
  | .node st cs, t => by
    intro hwf
    obtain ⟨ids, t₁, hbuild, hmono, hpres₁, hwf₁, hrange₁, hbounds, hnopar, hrepL⟩ :=
      directAll_char cs t hwf
    have hset : set_children t₁.nodes.length ids
        (⟨t₁.nodes ++ [⟨st, [], Geom.zero⟩], t₁.log ++ [CoreEvent.newLeafEv]⟩ : TaffyTree) =
        (.ok (), ⟨t₁.nodes ++ [⟨st, ids, Geom.zero⟩],
          (t₁.log ++ [CoreEvent.newLeafEv]) ++ [CoreEvent.setChildrenEv]⟩) := by
      have h₀ := set_children_ok
        (show ((⟨t₁.nodes ++ [⟨st, [], Geom.zero⟩],
            t₁.log ++ [CoreEvent.newLeafEv]⟩ : TaffyTree).nodes)[t₁.nodes.length]? =
          some ⟨st, [], Geom.zero⟩ from getElem?_append_middle t₁.nodes _ [])
        (by
          intro r hr
          have := hbounds r hr
          show r < (t₁.nodes ++ [_]).length
          rw [List.length_append]
          omega)
        (by
          intro r hr n hn hmem
          rcases List.mem_append.1 hn with h' | h'
          · exact hnopar r hr n h' hmem
          · rcases List.mem_singleton.1 h' with h''
            subst h''
            cases hmem)
        (by
          intro n hn hmem
          rcases List.mem_append.1 hn with h' | h'
          · obtain ⟨j, hj⟩ := exists_index_of_mem h'
            have hjlt : j < t₁.nodes.length := lt_length_of_getElem? hj
            by_cases hjt : j < t.nodes.length
            · have : t.nodes[j]? = some n := by rw [← hpres₁ j hjt]; exact hj
              have := hwf n (List.getElem?_mem this) _ hmem
              omega
            · have := hrange₁ j n hj (by omega) _ hmem
              omega
          · rcases List.mem_singleton.1 h' with h''
            subst h''
            cases hmem)
        (by
          intro r hr
          have := hbounds r hr
          omega)
      rw [h₀]
      rw [show (t₁.nodes ++ [(⟨st, [], Geom.zero⟩ : Node)]).set t₁.nodes.length
          ⟨st, ids, Geom.zero⟩ = t₁.nodes ++ [⟨st, ids, Geom.zero⟩] from
        set_append_middle t₁.nodes _ _ []]
    have hnwc : new_with_children st ids t₁ =
        (.ok t₁.nodes.length, ⟨t₁.nodes ++ [⟨st, ids, Geom.zero⟩],
          (t₁.log ++ [CoreEvent.newLeafEv]) ++ [CoreEvent.setChildrenEv]⟩) := by
      show (match set_children t₁.nodes.length ids
          (⟨t₁.nodes ++ [⟨st, [], Geom.zero⟩],
            t₁.log ++ [CoreEvent.newLeafEv]⟩ : TaffyTree) with
        | (.error e, t) => ((.error e : Except TaffyError Nat), t)
        | (.ok _, t) => (.ok t₁.nodes.length, t)) = _
      rw [hset]
    have hunfold : StyleTree.directBuild (.node st cs) t =
        (.ok t₁.nodes.length, ⟨t₁.nodes ++ [⟨st, ids, Geom.zero⟩],
          (t₁.log ++ [CoreEvent.newLeafEv]) ++ [CoreEvent.setChildrenEv]⟩) := by
      show (match StyleTreeList.directBuildAll cs t with
        | (.error e, t) => ((.error e : Except TaffyError Nat), t)
        | (.ok ids, t) => new_with_children st ids t) = _
      rw [hbuild]
      dsimp only
      exact hnwc
    refine ⟨t₁.nodes.length,
      ⟨t₁.nodes ++ [⟨st, ids, Geom.zero⟩],
        (t₁.log ++ [CoreEvent.newLeafEv]) ++ [CoreEvent.setChildrenEv]⟩,
      hunfold, by simp, by omega, ?_, ?_, ?_, ?_, ?_⟩
    · intro i hi
      show (t₁.nodes ++ _)[i]? = _
      rw [getElem?_append_left (by omega)]
      exact hpres₁ i hi
    · intro n hn c hc
      show c < (t₁.nodes ++ [_]).length
      rw [List.length_append]
      rcases List.mem_append.1 hn with h' | h'
      · have := hwf₁ n h' c hc
        omega
      · rcases List.mem_singleton.1 h' with h''
        subst h''
        have := hbounds c hc
        omega
    · intro j n hjn hjge c hc
      rcases Nat.lt_trichotomy j t₁.nodes.length with hj | hj | hj
      · rw [getElem?_append_left hj] at hjn
        exact hrange₁ j n hjn hjge c hc
      · subst hj
        rw [getElem?_append_middle t₁.nodes _ []] at hjn
        cases hjn
        have := hbounds c hc
        omega
      · rw [List.getElem?_eq_none (by rw [List.length_append]; simp; omega)] at hjn
        cases hjn
    · intro n hn hmem
      rcases List.mem_append.1 hn with h' | h'
      · obtain ⟨j, hj⟩ := exists_index_of_mem h'
        have hjlt : j < t₁.nodes.length := lt_length_of_getElem? hj
        by_cases hjt : j < t.nodes.length
        · have : t.nodes[j]? = some n := by rw [← hpres₁ j hjt]; exact hj
          have := hwf n (List.getElem?_mem this) _ hmem
          omega
        · have := hrange₁ j n hj (by omega) _ hmem
          omega
      · rcases List.mem_singleton.1 h' with h''
        subst h''
        have := hbounds _ hmem
        omega
    · refine ⟨⟨st, ids, Geom.zero⟩, getElem?_append_middle t₁.nodes _ [], rfl, ?_⟩
      refine representsL_stable cs t₁ _ ids ?_ hrepL
      intro i hi
      exact getElem?_append_left hi

theorem directAll_char : ∀ (Ts : StyleTreeList) (t : TaffyTree), WF t →
    ∃ ids t', StyleTreeList.directBuildAll Ts t = (.ok ids, t') ∧
      t.nodes.length ≤ t'.nodes.length ∧
      (∀ i, i < t.nodes.length → t'.nodes[i]? = t.nodes[i]?) ∧
      WF t' ∧
      (∀ j n, t'.nodes[j]? = some n → t.nodes.length ≤ j →
        ∀ c ∈ n.children, t.nodes.length ≤ c ∧ c < j) ∧
      (∀ r ∈ ids, t.nodes.length ≤ r ∧ r < t'.nodes.length) ∧
      (∀ r ∈ ids, ∀ n ∈ t'.nodes, r ∉ n.children) ∧
      RepresentsL t' ids Ts
  | .nil, t => by
    intro hwf
    refine ⟨[], t, rfl, Nat.le_refl _, fun i _ => rfl, hwf, ?_, ?_, ?_, trivial⟩
    · intro j n hjn hjge c hc
      have := lt_length_of_getElem? hjn
      omega
    · intro r hr
      cases hr
    · intro r hr
      cases hr
  | .cons c rest, t => by
    intro hwf
    obtain ⟨id₁, t₁, hb₁, hlen₁, hge₁, hpres₁, hwf₁, hrange₁, hnochild₁, hrep₁⟩ :=
      direct_char c t hwf
    obtain ⟨ids₂, t₂, hb₂, hmono₂, hpres₂, hwf₂, hrange₂, hbounds₂, hnopar₂, hrep₂⟩ :=
      directAll_char rest t₁ hwf₁
    have hunfold : StyleTreeList.directBuildAll (.cons c rest) t = (.ok (id₁ :: ids₂), t₂) := by
      show (match StyleTree.directBuild c t with
        | (.error e, t) => ((.error e : Except TaffyError (List Nat)), t)
        | (.ok id, t) =>
          match StyleTreeList.directBuildAll rest t with
          | (.error e, t) => (.error e, t)
          | (.ok ids, t) => (.ok (id :: ids), t)) = _
      rw [hb₁]
      dsimp only
      rw [hb₂]
    refine ⟨id₁ :: ids₂, t₂, hunfold, by omega, ?_, hwf₂, ?_, ?_, ?_, ?_⟩
    · intro i hi
      rw [hpres₂ i (by omega)]
      exact hpres₁ i hi
    · intro j n hjn hjge c' hc'
      by_cases hj : j < t₁.nodes.length
      · rw [hpres₂ j hj] at hjn
        exact hrange₁ j n hjn hjge c' hc'
      · have := hrange₂ j n hjn (by omega) c' hc'
        omega
    · intro r hr
      rcases List.mem_cons.1 hr with h' | h'
      · subst h'
        omega
      · have := hbounds₂ r h'
        omega
    · intro r hr n hn hmem
      rcases List.mem_cons.1 hr with h' | h'
      · subst h'
        obtain ⟨j, hj⟩ := exists_index_of_mem hn
        have hjlt : j < t₂.nodes.length := lt_length_of_getElem? hj
        by_cases hjt : j < t₁.nodes.length
        · have : t₁.nodes[j]? = some n := by rw [← hpres₂ j hjt]; exact hj
          exact hnochild₁ n (List.getElem?_mem this) hmem
        · have := hrange₂ j n hj (by omega) _ hmem
          omega
      · exact hnopar₂ r h' n hn hmem
    · refine ⟨represents_stable c t₁ t₂ id₁ hpres₂ hrep₁, hrep₂⟩
end

lemma build_represents {b : StyleBuilder} {s : BuildState} {id : Nat} {s' : BuildState}
    (hwf : WF s.tree) (hb : StyleBuilder.build b s = (.ok id, s')) :
    Represents s'.tree id b.specTree := by
  rw [build_char b s hwf] at hb
  injection hb with h1 h2
  injection h1 with h1
  subst h1
  subst h2
  have h := represents_flatten b s.tree.nodes [] (s.tree.log ++ StyleBuilder.events b)
    s.tree.nodes.length rfl
  rw [List.append_nil] at h
  exact h

lemma direct_represents {T : StyleTree} {t : TaffyTree} {id : Nat} {t' : TaffyTree}
    (hwf : WF t) (hb : StyleTree.directBuild T t = (.ok id, t')) :
    Represents t' id T := by
  obtain ⟨id₀, t₀, hb₀, _, _, _, _, _, _, hrep⟩ := direct_char T t hwf
  rw [hb₀] at hb
  injection hb with h1 h2
  injection h1 with h1
  subst h1
  subst h2
  exact hrep

lemma representsL_length : ∀ (Ts : StyleTreeList) (t : TaffyTree) (ids : List Nat),
    RepresentsL t ids Ts → ids.length = Ts.toList.length
  | .nil, t, [] => fun _ => rfl
  | .nil, t, a :: as => fun h => absurd h (fun h' => h')
  | .cons T Ts, t, [] => fun h => absurd h (fun h' => h')
  | .cons T Ts, t, a :: as => fun h => by
    obtain ⟨h₁, h₂⟩ := h
    show as.length + 1 = (Ts.toList.length) + 1
    rw [representsL_length Ts t as h₂]

lemma specTreeL_toList_length : ∀ cs : StyleBuilderList,
    (StyleBuilderList.specTree cs).toList.length = cs.toList.length
  | .nil => rfl
  | .cons c rest => by
    show ((StyleBuilderList.specTree rest).toList.length) + 1 = (rest.toList.length) + 1
    rw [specTreeL_toList_length rest]

/-- C2: a tree materialized via `StyleBuilder::build` is equivalent to direct
construction. Under a well-formed store, a successful `build` produces a
subtree that realizes the builder's spec tree (at every node the style of that
node's `build_style`, with the builder's child structure), and so does direct
construction via `new_leaf` / `new_with_children` of the same styles and
structure; consequently, for any per-node layout recipe `F` / `CA` and
available space, layout computed on either tree is the same geometry tree
`geomTreeOf F CA b.specTree av` for every node of the subtree. -/
theorem build_equals_direct_construction :
    ∀ (b : StyleBuilder) (s : BuildState) (id : Nat) (s' : BuildState)
      (td t₂ : TaffyTree) (jd : Nat),
    WF s.tree → WF td →
    StyleBuilder.build b s = (.ok id, s') →
    StyleTree.directBuild b.specTree td = (.ok jd, t₂) →
    Represents s'.tree id b.specTree ∧ Represents t₂ jd b.specTree ∧
    ∀ (F : Style → AvailableSpace → List Geom → Geom)
      (CA : Style → AvailableSpace → AvailableSpace) (av : AvailableSpace) (fuel : Nat),
      b.specTree.height ≤ fuel →
      computeGeomTree F CA fuel s'.tree id av = some (geomTreeOf F CA b.specTree av) ∧
      computeGeomTree F CA fuel t₂ jd av = some (geomTreeOf F CA b.specTree av) := by
  intro b s id s' td t₂ jd hwf hwfd hb hd
  have h₁ : Represents s'.tree id b.specTree := build_represents hwf hb
  have h₂ : Represents t₂ jd b.specTree := direct_represents hwfd hd
  refine ⟨h₁, h₂, ?_⟩
  intro F CA av fuel hfuel
  exact ⟨represents_geom fuel b.specTree s'.tree id av F CA h₁ hfuel,
    represents_geom fuel b.specTree t₂ jd av F CA h₂ hfuel⟩

/-- Witness for C2 at a concrete two-node builder: a row with one child,
built into an empty tree both ways. -/
theorem build_equals_direct_construction_witness :
    Represents (StyleBuilder.build (StyleBuilder.row.child StyleBuilder.new)
        ⟨TaffyTree.new, []⟩).2.tree 0
      (StyleBuilder.row.child StyleBuilder.new).specTree ∧
    Represents (StyleTree.directBuild (StyleBuilder.row.child StyleBuilder.new).specTree
        TaffyTree.new).2 1
      (StyleBuilder.row.child StyleBuilder.new).specTree ∧
    ∀ (F : Style → AvailableSpace → List Geom → Geom)
      (CA : Style → AvailableSpace → AvailableSpace) (av : AvailableSpace) (fuel : Nat),
      (StyleBuilder.row.child StyleBuilder.new).specTree.height ≤ fuel →
      computeGeomTree F CA fuel (StyleBuilder.build (StyleBuilder.row.child StyleBuilder.new)
          ⟨TaffyTree.new, []⟩).2.tree 0 av =
        some (geomTreeOf F CA (StyleBuilder.row.child StyleBuilder.new).specTree av) ∧
      computeGeomTree F CA fuel
          (StyleTree.directBuild (StyleBuilder.row.child StyleBuilder.new).specTree
            TaffyTree.new).2 1 av =
        some (geomTreeOf F CA (StyleBuilder.row.child StyleBuilder.new).specTree av) :=
  build_equals_direct_construction (StyleBuilder.row.child StyleBuilder.new)
    ⟨TaffyTree.new, []⟩ 0
    (StyleBuilder.build (StyleBuilder.row.child StyleBuilder.new) ⟨TaffyTree.new, []⟩).2
    TaffyTree.new
    (StyleTree.directBuild (StyleBuilder.row.child StyleBuilder.new).specTree TaffyTree.new).2
    1 (by decide) (by decide) rfl rfl

lemma rootIds_toList_length : ∀ (cs : StyleBuilderList) (base : Nat),
    (StyleBuilderList.rootIds cs base).length = cs.toList.length
  | .nil, _ => rfl
  | .cons c rest, base => by
    show (StyleBuilderList.rootIds rest (base + c.nodeCount)).length + 1 =
      (rest.toList.length) + 1
    rw [rootIds_toList_length rest]

/-- C3: child order is preserved by materialization. Under a well-formed
store, a successful `build` stores as the node's ordered child list exactly
the ids assigned to the children `c1..cn` in that order (the pre-order id
assignment `rootIds`), and the i-th stored child id realizes the i-th child
builder's spec tree. -/
theorem build_preserves_child_order :
    ∀ (b : StyleBuilder) (s : BuildState) (id : Nat) (s' : BuildState),
    WF s.tree → StyleBuilder.build b s = (.ok id, s') →
    ∃ ids, childrenOf s'.tree id = some ids ∧
      ids = StyleBuilderList.rootIds b.children (s.tree.nodes.length + 1) ∧
      ids.length = b.children.toList.length ∧
      RepresentsL s'.tree ids (StyleBuilderList.specTree b.children) := by
  intro b s id s' hwf hb
  rw [build_char b s hwf] at hb
  injection hb with h1 h2
  injection h1 with h1
  subst h1
  subst h2
  cases b with
  | mk cs h fs =>
    refine ⟨StyleBuilderList.rootIds cs (s.tree.nodes.length + 1), ?_, rfl, ?_, ?_⟩
    · show (Option.map Node.children _) = _
      rw [show ((⟨s.tree.nodes ++ StyleBuilder.flatten (.mk cs h fs) s.tree.nodes.length,
          s.tree.log ++ StyleBuilder.events (.mk cs h fs)⟩ : TaffyTree)).getNode?
          s.tree.nodes.length =
        some ⟨StyleBuilder.build_style (.mk cs h fs),
          StyleBuilderList.rootIds cs (s.tree.nodes.length + 1), Geom.zero⟩ from
        getElem?_append_middle s.tree.nodes _ _]
      rfl
    · exact rootIds_toList_length cs _
    · have hL := representsL_flattenList cs
        (s.tree.nodes ++ [⟨StyleBuilder.build_style (.mk cs h fs),
          StyleBuilderList.rootIds cs (s.tree.nodes.length + 1), Geom.zero⟩]) []
        (s.tree.log ++ StyleBuilder.events (.mk cs h fs)) (s.tree.nodes.length + 1)
        (by simp)
      rw [List.append_nil] at hL
      rw [show ((s.tree.nodes ++ [(⟨StyleBuilder.build_style (.mk cs h fs),
          StyleBuilderList.rootIds cs (s.tree.nodes.length + 1), Geom.zero⟩ : Node)]) ++
          StyleBuilderList.flatten cs (s.tree.nodes.length + 1)) =
        s.tree.nodes ++ (⟨StyleBuilder.build_style (.mk cs h fs),
          StyleBuilderList.rootIds cs (s.tree.nodes.length + 1), Geom.zero⟩ ::
            StyleBuilderList.flatten cs (s.tree.nodes.length + 1)) from by simp] at hL
      exact hL

/-- Witness for C3 at a concrete builder with two children. -/
theorem build_preserves_child_order_witness :
    ∃ ids, childrenOf (StyleBuilder.build
        ((StyleBuilder.row.child StyleBuilder.new).child StyleBuilder.column)
        ⟨TaffyTree.new, []⟩).2.tree 0 = some ids ∧
      ids = StyleBuilderList.rootIds
        ((StyleBuilder.row.child StyleBuilder.new).child StyleBuilder.column).children 1 ∧
      ids.length = ((StyleBuilder.row.child StyleBuilder.new).child
        StyleBuilder.column).children.toList.length ∧
      RepresentsL (StyleBuilder.build
          ((StyleBuilder.row.child StyleBuilder.new).child StyleBuilder.column)
          ⟨TaffyTree.new, []⟩).2.tree ids
        (StyleBuilderList.specTree ((StyleBuilder.row.child StyleBuilder.new).child
          StyleBuilder.column).children) :=
  build_preserves_child_order
    ((StyleBuilder.row.child StyleBuilder.new).child StyleBuilder.column)
    ⟨TaffyTree.new, []⟩ 0
    (StyleBuilder.build ((StyleBuilder.row.child StyleBuilder.new).child StyleBuilder.column)
      ⟨TaffyTree.new, []⟩).2
    (by decide) rfl

/-- Map a core result into the `StyleNode` error type, as the `From`-based `?`
conversion of `src/tree/builder.rs` does. -/
def resMap : Except TaffyError Nat → Except StyleNodeError Nat
  | .ok id => .ok id
  | .error e => .error (.TaffyComputeError e)

/-- List version of `resMap`. -/
def resMapL : Except TaffyError (List Nat) → Except StyleNodeError (List Nat)
  | .ok ids => .ok ids
  | .error e => .error (.TaffyComputeError e)

mutual
theorem toStyleNode_build_eq : ∀ (b : StyleBuilder) (s : BuildState),
    StyleNode.build b.toStyleNode s =
      (resMap (StyleBuilder.build b s).1, (StyleBuilder.build b s).2)
  | .mk cs h fs, s => by
    show (match StyleNodeList.buildAll (StyleBuilderList.toStyleNodeList cs)
        (handleStep h s.tree.nodes.length
          ⟨⟨s.tree.nodes ++ [(⟨StyleBuilder.build_style (.mk cs h fs), [], Geom.zero⟩ : Node)],
            s.tree.log ++ [CoreEvent.newLeafEv]⟩, s.handles⟩) with
      | (.error e, s₃) => ((.error e : Except StyleNodeError Nat), s₃)
      | (.ok ids, s₃) =>
        match set_children s.tree.nodes.length ids s₃.tree with
        | (.error e, t') => (.error (.TaffyComputeError e), { s₃ with tree := t' })
        | (.ok _, t') => (.ok s.tree.nodes.length, { s₃ with tree := t' })) = _
    rw [toStyleNodeL_buildAll_eq cs (handleStep h s.tree.nodes.length
      ⟨⟨s.tree.nodes ++ [(⟨StyleBuilder.build_style (.mk cs h fs), [], Geom.zero⟩ : Node)],
        s.tree.log ++ [CoreEvent.newLeafEv]⟩, s.handles⟩)]
    have hbuild : StyleBuilder.build (.mk cs h fs) s =
        (match StyleBuilderList.buildAll cs (handleStep h s.tree.nodes.length
          ⟨⟨s.tree.nodes ++ [(⟨StyleBuilder.build_style (.mk cs h fs), [], Geom.zero⟩ : Node)],
            s.tree.log ++ [CoreEvent.newLeafEv]⟩, s.handles⟩) with
          | (.error e, s₃) => ((.error e : Except TaffyError Nat), s₃)
          | (.ok ids, s₃) =>
            match set_children s.tree.nodes.length ids s₃.tree with
            | (.error e, t') => (.error e, { s₃ with tree := t' })
            | (.ok _, t') => (.ok s.tree.nodes.length, { s₃ with tree := t' })) := rfl
    rw [hbuild]
    rcases hX : StyleBuilderList.buildAll cs (handleStep h s.tree.nodes.length
      ⟨⟨s.tree.nodes ++ [(⟨StyleBuilder.build_style (.mk cs h fs), [], Geom.zero⟩ : Node)],
        s.tree.log ++ [CoreEvent.newLeafEv]⟩, s.handles⟩) with ⟨r, s₃⟩
    cases r with
    | error e => rfl
    | ok ids =>
      dsimp only
      show (match set_children s.tree.nodes.length ids s₃.tree with
        | (.error e, t') =>
          ((.error (.TaffyComputeError e) : Except StyleNodeError Nat), { s₃ with tree := t' })
        | (.ok _, t') => (.ok s.tree.nodes.length, { s₃ with tree := t' })) = _
      rcases hY : set_children s.tree.nodes.length ids s₃.tree with ⟨r', t'⟩
      cases r' with
      | error e => rfl
      | ok u => rfl

theorem toStyleNodeL_buildAll_eq : ∀ (cs : StyleBuilderList) (s : BuildState),
    StyleNodeList.buildAll cs.toStyleNodeList s =
      (resMapL (StyleBuilderList.buildAll cs s).1, (StyleBuilderList.buildAll cs s).2)
  | .nil, s => rfl
  | .cons c rest, s => by
    show (match StyleNode.build c.toStyleNode s with
      | (.error e, s') => ((.error e : Except StyleNodeError (List Nat)), s')
      | (.ok id, s') =>
        match StyleNodeList.buildAll rest.toStyleNodeList s' with
        | (.error e, s'') => (.error e, s'')
        | (.ok ids, s'') => (.ok (id :: ids), s'')) = _
    rw [toStyleNode_build_eq c s]
    have hbuild : StyleBuilderList.buildAll (.cons c rest) s =
        (match StyleBuilder.build c s with
          | (.error e, s') => ((.error e : Except TaffyError (List Nat)), s')
          | (.ok id, s') =>
            match StyleBuilderList.buildAll rest s' with
            | (.error e, s'') => (.error e, s'')
            | (.ok ids, s'') => (.ok (id :: ids), s'')) := rfl
    rw [hbuild]
    rcases hX : StyleBuilder.build c s with ⟨r, s'⟩
    cases r with
    | error e => rfl
    | ok id =>
      dsimp only
      show (match StyleNodeList.buildAll rest.toStyleNodeList s' with
        | (.error e, s'') => ((.error e : Except StyleNodeError (List Nat)), s'')
        | (.ok ids, s'') => (.ok (id :: ids), s'')) = _
      rw [toStyleNodeL_buildAll_eq rest s']
      rcases hY : StyleBuilderList.buildAll rest s' with ⟨r₂, s''⟩
      cases r₂ with
      | error e => rfl
      | ok ids => rfl
end

/-- C6: the closure-based `StyleNode` builder and the fluent `StyleBuilder`
are equivalent. For any builder, translating it into the `StyleNode` with the
same per-node style settings, handle and child structure and running
`StyleNode::build` yields the same result and the very same final state (same
tree, same styles, same child ordering, same resolved handles — hence
identical computed layouts) as `StyleBuilder::build`, with the core error
embedded through `StyleNodeError::TaffyComputeError`. -/
theorem closure_builder_equals_fluent_builder :
    ∀ (b : StyleBuilder) (s : BuildState),
    StyleNode.build b.toStyleNode s =
      (resMap (StyleBuilder.build b s).1, (StyleBuilder.build b s).2) :=
  toStyleNode_build_eq

mutual
theorem events_spec : ∀ b : StyleBuilder,
    (StyleBuilder.events b).count CoreEvent.newLeafEv = b.nodeCount ∧
    (StyleBuilder.events b).count CoreEvent.setChildrenEv = b.nodeCount ∧
    (StyleBuilder.events b).count CoreEvent.computeLayoutEv = 0 ∧
    (StyleBuilder.events b).count CoreEvent.cacheLookupEv = 0 ∧
    (StyleBuilder.events b).length = 2 * b.nodeCount
  | .mk cs h fs => by
    obtain ⟨h1, h2, h3, h4, h5⟩ := eventsL_spec cs
    have he : StyleBuilder.events (.mk cs h fs) =
        CoreEvent.newLeafEv :: (StyleBuilderList.events cs ++ [CoreEvent.setChildrenEv]) := rfl
    have hn : StyleBuilder.nodeCount (.mk cs h fs) = 1 + cs.nodeCount := rfl
    rw [he, hn]
    refine ⟨?_, ?_, ?_, ?_, ?_⟩
    · simp [List.count_cons, List.count_append, h1]
      try omega
    · simp [List.count_cons, List.count_append, h2]
      try omega
    · simp [List.count_cons, List.count_append, h3]
      try omega
    · simp [List.count_cons, List.count_append, h4]
      try omega
    · simp [List.length_cons, List.length_append, h5]
      try omega

theorem eventsL_spec : ∀ cs : StyleBuilderList,
    (StyleBuilderList.events cs).count CoreEvent.newLeafEv = cs.nodeCount ∧
    (StyleBuilderList.events cs).count CoreEvent.setChildrenEv = cs.nodeCount ∧
    (StyleBuilderList.events cs).count CoreEvent.computeLayoutEv = 0 ∧
    (StyleBuilderList.events cs).count CoreEvent.cacheLookupEv = 0 ∧
    (StyleBuilderList.events cs).length = 2 * cs.nodeCount
  | .nil => ⟨rfl, rfl, rfl, rfl, rfl⟩
  | .cons c rest => by
    obtain ⟨h1, h2, h3, h4, h5⟩ := events_spec c
    obtain ⟨g1, g2, g3, g4, g5⟩ := eventsL_spec rest
    have he : StyleBuilderList.events (.cons c rest) =
        StyleBuilder.events c ++ StyleBuilderList.events rest := rfl
    have hn : StyleBuilderList.nodeCount (.cons c rest) = c.nodeCount + rest.nodeCount := rfl
    rw [he, hn]
    refine ⟨?_, ?_, ?_, ?_, ?_⟩
    · simp [List.count_append, h1, g1]
    · simp [List.count_append, h2, g2]
    · simp [List.count_append, h3, g3]
    · simp [List.count_append, h4, g4]
    · simp [List.length_append, h5, g5]
      try omega
end

/-- C5: during a successful `StyleBuilder::build` on a well-formed store, the
only core entry points invoked are exactly one `new_leaf` and one
`set_children` per builder node: the appended portion of the entry-point log
contains `nodeCount` events of each of those two kinds, none of any other
kind (in particular no layout computation and no cache lookup), and nothing
else. -/
theorem builder_uses_only_sanctioned_entry_points :
    ∀ (b : StyleBuilder) (s : BuildState), WF s.tree →
    ∃ tr, ((StyleBuilder.build b s).2).tree.log = s.tree.log ++ tr ∧
      tr.count CoreEvent.newLeafEv = b.nodeCount ∧
      tr.count CoreEvent.setChildrenEv = b.nodeCount ∧
      tr.count CoreEvent.computeLayoutEv = 0 ∧
      tr.count CoreEvent.cacheLookupEv = 0 ∧
      tr.length = 2 * b.nodeCount := by
  intro b s hwf
  rw [build_char b s hwf]
  obtain ⟨h1, h2, h3, h4, h5⟩ := events_spec b
  exact ⟨StyleBuilder.events b, rfl, h1, h2, h3, h4, h5⟩

/-- Witness for C5 at a concrete two-node builder on an empty store. -/
theorem builder_uses_only_sanctioned_entry_points_witness :
    ∃ tr, ((StyleBuilder.build (StyleBuilder.column.child StyleBuilder.row)
        ⟨TaffyTree.new, []⟩).2).tree.log = (TaffyTree.new).log ++ tr ∧
      tr.count CoreEvent.newLeafEv = (StyleBuilder.column.child StyleBuilder.row).nodeCount ∧
      tr.count CoreEvent.setChildrenEv = (StyleBuilder.column.child StyleBuilder.row).nodeCount ∧
      tr.count CoreEvent.computeLayoutEv = 0 ∧
      tr.count CoreEvent.cacheLookupEv = 0 ∧
      tr.length = 2 * (StyleBuilder.column.child StyleBuilder.row).nodeCount :=
  builder_uses_only_sanctioned_entry_points (StyleBuilder.column.child StyleBuilder.row)
    ⟨TaffyTree.new, []⟩ (by decide)

lemma styleNode_build_unfold (sb : Except StyleBuilderError Style) (cs : StyleNodeList)
    (h : Option Nat) (s : BuildState) :
    StyleNode.build (.mk sb cs h) s =
      match sb with
      | .error e => (.error (.BuilderFailed e), s)
      | .ok st =>
        match StyleNodeList.buildAll cs (handleStep h s.tree.nodes.length
            ⟨(new_leaf st s.tree).2, s.handles⟩) with
        | (.error e, s₃) => (.error e, s₃)
        | (.ok ids, s₃) =>
          match set_children s.tree.nodes.length ids s₃.tree with
          | (.error te, t') => (.error (.TaffyComputeError te), { s₃ with tree := t' })
          | (.ok _, t') => (.ok s.tree.nodes.length, { s₃ with tree := t' }) := by
  cases sb with
  | error e => rfl
  | ok st => rfl

lemma styleBuilder_build_unfold (cs : StyleBuilderList) (h : Option Nat) (fs : StyleFields)
    (s : BuildState) :
    StyleBuilder.build (.mk cs h fs) s =
      match StyleBuilderList.buildAll cs (handleStep h s.tree.nodes.length
          ⟨(new_leaf (StyleBuilder.build_style (.mk cs h fs)) s.tree).2, s.handles⟩) with
      | (.error e, s₃) => (.error e, s₃)
      | (.ok ids, s₃) =>
        match set_children s.tree.nodes.length ids s₃.tree with
        | (.error te, t') => (.error te, { s₃ with tree := t' })
        | (.ok _, t') => (.ok s.tree.nodes.length, { s₃ with tree := t' }) := rfl

lemma styleNode_build_error_iff (sb : Except StyleBuilderError Style) (cs : StyleNodeList)
    (h : Option Nat) (s : BuildState) (e : StyleNodeError) (s' : BuildState) :
    StyleNode.build (.mk sb cs h) s = (.error e, s') ↔
      (∃ be, sb = .error be ∧ e = .BuilderFailed be ∧ s' = s) ∨
      (∃ st te t₁, sb = .ok st ∧ new_leaf st s.tree = (.error te, t₁) ∧
        e = .TaffyComputeError te ∧ s' = { s with tree := t₁ }) ∨
      (∃ st, sb = .ok st ∧
        StyleNodeList.buildAll cs (handleStep h s.tree.nodes.length
          ⟨(new_leaf st s.tree).2, s.handles⟩) = (.error e, s')) ∨
      (∃ st ids s₃ te t', sb = .ok st ∧
        StyleNodeList.buildAll cs (handleStep h s.tree.nodes.length
          ⟨(new_leaf st s.tree).2, s.handles⟩) = (.ok ids, s₃) ∧
        set_children s.tree.nodes.length ids s₃.tree = (.error te, t') ∧
        e = .TaffyComputeError te ∧ s' = { s₃ with tree := t' }) := by
  rw [styleNode_build_unfold]
  cases sb with
  | error be =>
    constructor
    · intro hb
      injection hb with h1 h2
      injection h1 with h1
      exact Or.inl ⟨be, rfl, h1.symm, h2.symm⟩
    · intro hd
      rcases hd with ⟨be', hbe, he, hs⟩ | ⟨st, te, t₁, hst, hrest⟩ | ⟨st, hst, hrest⟩ |
        ⟨st, ids, s₃, te, t', hst, hrest⟩
      · injection hbe with hbe
        subst hbe
        subst he
        subst hs
        rfl
      · injection hst
      · injection hst
      · injection hst
  | ok st =>
    dsimp only
    constructor
    · intro hb
      rcases hX : StyleNodeList.buildAll cs (handleStep h s.tree.nodes.length
          ⟨(new_leaf st s.tree).2, s.handles⟩) with ⟨r, s₃⟩
      rw [hX] at hb
      cases r with
      | error e' =>
        have hb' : ((.error e' : Except StyleNodeError Nat), s₃) = (.error e, s') := hb
        injection hb' with h1 h2
        injection h1 with h1
        subst h1
        subst h2
        exact Or.inr (Or.inr (Or.inl ⟨st, rfl, hX⟩))
      | ok ids =>
        have hb' : (match set_children s.tree.nodes.length ids s₃.tree with
            | (.error te, t') =>
              ((.error (.TaffyComputeError te) : Except StyleNodeError Nat),
                { s₃ with tree := t' })
            | (.ok _, t') => (.ok s.tree.nodes.length, { s₃ with tree := t' })) =
            (.error e, s') := hb
        rcases hY : set_children s.tree.nodes.length ids s₃.tree with ⟨r', t'⟩
        rw [hY] at hb'
        cases r' with
        | error te =>
          have hb'' : ((.error (.TaffyComputeError te) : Except StyleNodeError Nat),
              { s₃ with tree := t' }) = (.error e, s') := hb'
          injection hb'' with h1 h2
          injection h1 with h1
          exact Or.inr (Or.inr (Or.inr ⟨st, ids, s₃, te, t', rfl, hX, hY, h1.symm, h2.symm⟩))
        | ok u =>
          have hb'' : ((.ok s.tree.nodes.length : Except StyleNodeError Nat),
              { s₃ with tree := t' }) = (.error e, s') := hb'
          injection hb'' with h1 h2
          injection h1
    · intro hd
      rcases hd with ⟨be', hbe, he, hs⟩ | ⟨st', te, t₁, hst, hnl, he, hs⟩ | ⟨st', hst, hX⟩ |
        ⟨st', ids, s₃, te, t', hst, hX, hY, he, hs⟩
      · injection hbe
      · injection hst with hst
        subst hst
        have hnl' : ((.ok s.tree.nodes.length : Except TaffyError Nat),
            (new_leaf st s.tree).2) = (.error te, t₁) := hnl
        injection hnl' with h1 h2
        injection h1
      · injection hst with hst
        subst hst
        rw [hX]
      · injection hst with hst
        subst hst
        rw [hX]
        show (match set_children s.tree.nodes.length ids s₃.tree with
            | (.error te, t') =>
              ((.error (.TaffyComputeError te) : Except StyleNodeError Nat),
                { s₃ with tree := t' })
            | (.ok _, t') => (.ok s.tree.nodes.length, { s₃ with tree := t' })) = _
        rw [hY]
        subst he
        subst hs
        rfl

lemma styleNode_build_ok_iff (sb : Except StyleBuilderError Style) (cs : StyleNodeList)
    (h : Option Nat) (s : BuildState) (id : Nat) (s' : BuildState) :
    StyleNode.build (.mk sb cs h) s = (.ok id, s') ↔
      ∃ st ids s₃ t', sb = .ok st ∧
        new_leaf st s.tree = (.ok id, (new_leaf st s.tree).2) ∧
        StyleNodeList.buildAll cs (handleStep h s.tree.nodes.length
          ⟨(new_leaf st s.tree).2, s.handles⟩) = (.ok ids, s₃) ∧
        set_children s.tree.nodes.length ids s₃.tree = (.ok (), t') ∧
        s' = { s₃ with tree := t' } := by
  rw [styleNode_build_unfold]
  cases sb with
  | error be =>
    constructor
    · intro hb
      injection hb with h1 h2
      injection h1
    · intro hd
      rcases hd with ⟨st, ids, s₃, t', hst, hrest⟩
      injection hst
  | ok st =>
    dsimp only
    constructor
    · intro hb
      rcases hX : StyleNodeList.buildAll cs (handleStep h s.tree.nodes.length
          ⟨(new_leaf st s.tree).2, s.handles⟩) with ⟨r, s₃⟩
      rw [hX] at hb
      cases r with
      | error e' =>
        have hb' : ((.error e' : Except StyleNodeError Nat), s₃) = (.ok id, s') := hb
        injection hb' with h1 h2
        injection h1
      | ok ids =>
        have hb' : (match set_children s.tree.nodes.length ids s₃.tree with
            | (.error te, t') =>
              ((.error (.TaffyComputeError te) : Except StyleNodeError Nat),
                { s₃ with tree := t' })
            | (.ok _, t') => (.ok s.tree.nodes.length, { s₃ with tree := t' })) =
            (.ok id, s') := hb
        rcases hY : set_children s.tree.nodes.length ids s₃.tree with ⟨r', t'⟩
        rw [hY] at hb'
        cases r' with
        | error te =>
          have hb'' : ((.error (.TaffyComputeError te) : Except StyleNodeError Nat),
              { s₃ with tree := t' }) = (.ok id, s') := hb'
          injection hb'' with h1 h2
          injection h1
        | ok u =>
          have hb'' : ((.ok s.tree.nodes.length : Except StyleNodeError Nat),
              { s₃ with tree := t' }) = (.ok id, s') := hb'
          injection hb'' with h1 h2
          injection h1 with h1
          subst h1
          exact ⟨st, ids, s₃, t', rfl, rfl, hX, by rw [hY], h2.symm⟩
    · intro hd
      rcases hd with ⟨st', ids, s₃, t', hst, hnl, hX, hY, hs⟩
      injection hst with hst
      subst hst
      have hnl' : ((.ok s.tree.nodes.length : Except TaffyError Nat),
          (new_leaf st s.tree).2) = (.ok id, (new_leaf st s.tree).2) := hnl
      injection hnl' with h1 h2
      injection h1 with h1
      subst h1
      rw [hX]
      show (match set_children s.tree.nodes.length ids s₃.tree with
          | (.error te, t') =>
            ((.error (.TaffyComputeError te) : Except StyleNodeError Nat),
              { s₃ with tree := t' })
          | (.ok _, t') => (.ok s.tree.nodes.length, { s₃ with tree := t' })) = _
      rw [hY]
      subst hs
      rfl

lemma styleBuilder_build_error_iff (cs : StyleBuilderList) (h : Option Nat)
    (fs : StyleFields) (s : BuildState) (e : TaffyError) (s' : BuildState) :
    StyleBuilder.build (.mk cs h fs) s = (.error e, s') ↔
      (∃ te t₁, new_leaf (StyleBuilder.build_style (.mk cs h fs)) s.tree = (.error te, t₁) ∧
        e = te ∧ s' = { s with tree := t₁ }) ∨
      (StyleBuilderList.buildAll cs (handleStep h s.tree.nodes.length
        ⟨(new_leaf (StyleBuilder.build_style (.mk cs h fs)) s.tree).2, s.handles⟩) =
        (.error e, s')) ∨
      (∃ ids s₃ t', StyleBuilderList.buildAll cs (handleStep h s.tree.nodes.length
          ⟨(new_leaf (StyleBuilder.build_style (.mk cs h fs)) s.tree).2, s.handles⟩) =
          (.ok ids, s₃) ∧
        set_children s.tree.nodes.length ids s₃.tree = (.error e, t') ∧
        s' = { s₃ with tree := t' }) := by
  rw [styleBuilder_build_unfold]
  constructor
  · intro hb
    rcases hX : StyleBuilderList.buildAll cs (handleStep h s.tree.nodes.length
        ⟨(new_leaf (StyleBuilder.build_style (.mk cs h fs)) s.tree).2, s.handles⟩) with ⟨r, s₃⟩
    rw [hX] at hb
    cases r with
    | error e' =>
      have hb' : ((.error e' : Except TaffyError Nat), s₃) = (.error e, s') := hb
      injection hb' with h1 h2
      injection h1 with h1
      subst h1
      subst h2
      exact Or.inr (Or.inl rfl)
    | ok ids =>
      have hb' : (match set_children s.tree.nodes.length ids s₃.tree with
          | (.error te, t') => ((.error te : Except TaffyError Nat), { s₃ with tree := t' })
          | (.ok _, t') => (.ok s.tree.nodes.length, { s₃ with tree := t' })) =
          (.error e, s') := hb
      rcases hY : set_children s.tree.nodes.length ids s₃.tree with ⟨r', t'⟩
      rw [hY] at hb'
      cases r' with
      | error te =>
        have hb'' : ((.error te : Except TaffyError Nat), { s₃ with tree := t' }) =
            (.error e, s') := hb'
        injection hb'' with h1 h2
        injection h1 with h1
        subst h1
        subst h2
        exact Or.inr (Or.inr ⟨ids, s₃, t', rfl, hY, rfl⟩)
      | ok u =>
        have hb'' : ((.ok s.tree.nodes.length : Except TaffyError Nat),
            { s₃ with tree := t' }) = (.error e, s') := hb'
        injection hb'' with h1 h2
        injection h1
  · intro hd
    rcases hd with ⟨te, t₁, hnl, he, hs⟩ | hX | ⟨ids, s₃, t', hX, hY, hs⟩
    · have hnl' : ((.ok s.tree.nodes.length : Except TaffyError Nat),
          (new_leaf (StyleBuilder.build_style (.mk cs h fs)) s.tree).2) = (.error te, t₁) := hnl
      injection hnl' with h1 h2
      injection h1
    · rw [hX]
    · rw [hX]
      show (match set_children s.tree.nodes.length ids s₃.tree with
          | (.error te, t') => ((.error te : Except TaffyError Nat), { s₃ with tree := t' })
          | (.ok _, t') => (.ok s.tree.nodes.length, { s₃ with tree := t' })) = _
      rw [hY]
      subst hs
      rfl

lemma styleBuilder_build_ok_iff (cs : StyleBuilderList) (h : Option Nat)
    (fs : StyleFields) (s : BuildState) (id : Nat) (s' : BuildState) :
    StyleBuilder.build (.mk cs h fs) s = (.ok id, s') ↔
      ∃ ids s₃ t',
        new_leaf (StyleBuilder.build_style (.mk cs h fs)) s.tree =
          (.ok id, (new_leaf (StyleBuilder.build_style (.mk cs h fs)) s.tree).2) ∧
        StyleBuilderList.buildAll cs (handleStep h s.tree.nodes.length
          ⟨(new_leaf (StyleBuilder.build_style (.mk cs h fs)) s.tree).2, s.handles⟩) =
          (.ok ids, s₃) ∧
        set_children s.tree.nodes.length ids s₃.tree = (.ok (), t') ∧
        s' = { s₃ with tree := t' } := by
  rw [styleBuilder_build_unfold]
  constructor
  · intro hb
    rcases hX : StyleBuilderList.buildAll cs (handleStep h s.tree.nodes.length
        ⟨(new_leaf (StyleBuilder.build_style (.mk cs h fs)) s.tree).2, s.handles⟩) with ⟨r, s₃⟩
    rw [hX] at hb
    cases r with
    | error e' =>
      have hb' : ((.error e' : Except TaffyError Nat), s₃) = (.ok id, s') := hb
      injection hb' with h1 h2
      injection h1
    | ok ids =>
      have hb' : (match set_children s.tree.nodes.length ids s₃.tree with
          | (.error te, t') => ((.error te : Except TaffyError Nat), { s₃ with tree := t' })
          | (.ok _, t') => (.ok s.tree.nodes.length, { s₃ with tree := t' })) =
          (.ok id, s') := hb
      rcases hY : set_children s.tree.nodes.length ids s₃.tree with ⟨r', t'⟩
      rw [hY] at hb'
      cases r' with
      | error te =>
        have hb'' : ((.error te : Except TaffyError Nat), { s₃ with tree := t' }) =
            (.ok id, s') := hb'
        injection hb'' with h1 h2
        injection h1
      | ok u =>
        have hb'' : ((.ok s.tree.nodes.length : Except TaffyError Nat),
            { s₃ with tree := t' }) = (.ok id, s') := hb'
        injection hb'' with h1 h2
        injection h1 with h1
        subst h1
        exact ⟨ids, s₃, t', rfl, rfl, by rw [hY], h2.symm⟩
  · intro hd
    rcases hd with ⟨ids, s₃, t', hnl, hX, hY, hs⟩
    have hnl' : ((.ok s.tree.nodes.length : Except TaffyError Nat),
        (new_leaf (StyleBuilder.build_style (.mk cs h fs)) s.tree).2) =
        (.ok id, (new_leaf (StyleBuilder.build_style (.mk cs h fs)) s.tree).2) := hnl
    injection hnl' with h1 h2
    injection h1 with h1
    subst h1
    rw [hX]
    show (match set_children s.tree.nodes.length ids s₃.tree with
        | (.error te, t') => ((.error te : Except TaffyError Nat), { s₃ with tree := t' })
        | (.ok _, t') => (.ok s.tree.nodes.length, { s₃ with tree := t' })) = _
    rw [hY]
    subst hs
    rfl

lemma styleNodeList_cons_error_iff (n : StyleNode) (rest : StyleNodeList) (s : BuildState)
    (e : StyleNodeError) (s' : BuildState) :
    StyleNodeList.buildAll (.cons n rest) s = (.error e, s') ↔
      StyleNode.build n s = (.error e, s') ∨
      (∃ id s₁, StyleNode.build n s = (.ok id, s₁) ∧
        StyleNodeList.buildAll rest s₁ = (.error e, s')) := by
  have hu : StyleNodeList.buildAll (.cons n rest) s =
      (match StyleNode.build n s with
        | (.error e, s₁) => ((.error e : Except StyleNodeError (List Nat)), s₁)
        | (.ok id, s₁) =>
          match StyleNodeList.buildAll rest s₁ with
          | (.error e, s₂) => (.error e, s₂)
          | (.ok ids, s₂) => (.ok (id :: ids), s₂)) := rfl
  rw [hu]
  rcases hX : StyleNode.build n s with ⟨r, s₁⟩
  cases r with
  | error e' =>
    constructor
    · intro hb
      have hb' : ((.error e' : Except StyleNodeError (List Nat)), s₁) = (.error e, s') := hb
      injection hb' with h1 h2
      injection h1 with h1
      subst h1
      subst h2
      exact Or.inl rfl
    · intro hd
      rcases hd with h' | ⟨id, s₂, h', hrest⟩
      · injection h' with h1 h2
        injection h1 with h1
        subst h1
        subst h2
        rfl
      · injection h' with h1 h2
        injection h1
  | ok id =>
    constructor
    · intro hb
      have hb' : (match StyleNodeList.buildAll rest s₁ with
          | (.error e, s₂) => ((.error e : Except StyleNodeError (List Nat)), s₂)
          | (.ok ids, s₂) => (.ok (id :: ids), s₂)) = (.error e, s') := hb
      rcases hY : StyleNodeList.buildAll rest s₁ with ⟨r₂, s₂⟩
      rw [hY] at hb'
      cases r₂ with
      | error e₂ =>
        have hb'' : ((.error e₂ : Except StyleNodeError (List Nat)), s₂) = (.error e, s') := hb'
        injection hb'' with h1 h2
        injection h1 with h1
        subst h1
        subst h2
        exact Or.inr ⟨id, s₁, rfl, hY⟩
      | ok ids =>
        have hb'' : ((.ok (id :: ids) : Except StyleNodeError (List Nat)), s₂) =
            (.error e, s') := hb'
        injection hb'' with h1 h2
        injection h1
    · intro hd
      rcases hd with h' | ⟨id₂, s₂, h', hrest⟩
      · injection h' with h1 h2
        injection h1
      · injection h' with h1 h2
        injection h1 with h1
        subst h1
        subst h2
        show (match StyleNodeList.buildAll rest s₁ with
          | (.error e, s₂) => ((.error e : Except StyleNodeError (List Nat)), s₂)
          | (.ok ids, s₂) => (.ok (id :: ids), s₂)) = _
        rw [hrest]

lemma styleBuilderList_cons_error_iff (c : StyleBuilder) (rest : StyleBuilderList)
    (s : BuildState) (e : TaffyError) (s' : BuildState) :
    StyleBuilderList.buildAll (.cons c rest) s = (.error e, s') ↔
      StyleBuilder.build c s = (.error e, s') ∨
      (∃ id s₁, StyleBuilder.build c s = (.ok id, s₁) ∧
        StyleBuilderList.buildAll rest s₁ = (.error e, s')) := by
  have hu : StyleBuilderList.buildAll (.cons c rest) s =
      (match StyleBuilder.build c s with
        | (.error e, s₁) => ((.error e : Except TaffyError (List Nat)), s₁)
        | (.ok id, s₁) =>
          match StyleBuilderList.buildAll rest s₁ with
          | (.error e, s₂) => (.error e, s₂)
          | (.ok ids, s₂) => (.ok (id :: ids), s₂)) := rfl
  rw [hu]
  rcases hX : StyleBuilder.build c s with ⟨r, s₁⟩
  cases r with
  | error e' =>
    constructor
    · intro hb
      have hb' : ((.error e' : Except TaffyError (List Nat)), s₁) = (.error e, s') := hb
      injection hb' with h1 h2
      injection h1 with h1
      subst h1
      subst h2
      exact Or.inl rfl
    · intro hd
      rcases hd with h' | ⟨id, s₂, h', hrest⟩
      · injection h' with h1 h2
        injection h1 with h1
        subst h1
        subst h2
        rfl
      · injection h' with h1 h2
        injection h1
  | ok id =>
    constructor
    · intro hb
      have hb' : (match StyleBuilderList.buildAll rest s₁ with
          | (.error e, s₂) => ((.error e : Except TaffyError (List Nat)), s₂)
          | (.ok ids, s₂) => (.ok (id :: ids), s₂)) = (.error e, s') := hb
      rcases hY : StyleBuilderList.buildAll rest s₁ with ⟨r₂, s₂⟩
      rw [hY] at hb'
      cases r₂ with
      | error e₂ =>
        have hb'' : ((.error e₂ : Except TaffyError (List Nat)), s₂) = (.error e, s') := hb'
        injection hb'' with h1 h2
        injection h1 with h1
        subst h1
        subst h2
        exact Or.inr ⟨id, s₁, rfl, hY⟩
      | ok ids =>
        have hb'' : ((.ok (id :: ids) : Except TaffyError (List Nat)), s₂) =
            (.error e, s') := hb'
        injection hb'' with h1 h2
        injection h1
    · intro hd
      rcases hd with h' | ⟨id₂, s₂, h', hrest⟩
      · injection h' with h1 h2
        injection h1
      · injection h' with h1 h2
        injection h1 with h1
        subst h1
        subst h2
        show (match StyleBuilderList.buildAll rest s₁ with
          | (.error e, s₂) => ((.error e : Except TaffyError (List Nat)), s₂)
          | (.ok ids, s₂) => (.ok (id :: ids), s₂)) = _
        rw [hrest]

/-- C4: neither build entry point ever swallows an error. The six parts
characterize `StyleNode::build`, `StyleBuilder::build` and their child-list
loops exactly: a build returns `Err` precisely when the style build (for
`StyleNode`), node creation (`new_leaf`), some recursive child build (the
first failing one), or `set_children` returns an error, and that error reaches
the caller unchanged (`StyleNode` embeds core errors through its `From`
conversions); it returns `Ok(root id)` precisely when every one of those
operations succeeded. In the arena model node creation always succeeds, so its
error disjunct is never inhabited. -/
theorem build_never_swallows_errors :
    (∀ (sb : Except StyleBuilderError Style) (cs : StyleNodeList)
      (h : Option Nat) (s : BuildState) (e : StyleNodeError) (s' : BuildState),
      StyleNode.build (.mk sb cs h) s = (.error e, s') ↔
        (∃ be, sb = .error be ∧ e = .BuilderFailed be ∧ s' = s) ∨
        (∃ st te t₁, sb = .ok st ∧ new_leaf st s.tree = (.error te, t₁) ∧
          e = .TaffyComputeError te ∧ s' = { s with tree := t₁ }) ∨
        (∃ st, sb = .ok st ∧
          StyleNodeList.buildAll cs (handleStep h s.tree.nodes.length
            ⟨(new_leaf st s.tree).2, s.handles⟩) = (.error e, s')) ∨
        (∃ st ids s₃ te t', sb = .ok st ∧
          StyleNodeList.buildAll cs (handleStep h s.tree.nodes.length
            ⟨(new_leaf st s.tree).2, s.handles⟩) = (.ok ids, s₃) ∧
          set_children s.tree.nodes.length ids s₃.tree = (.error te, t') ∧
          e = .TaffyComputeError te ∧ s' = { s₃ with tree := t' })) ∧
    (∀ (sb : Except StyleBuilderError Style) (cs : StyleNodeList)
      (h : Option Nat) (s : BuildState) (id : Nat) (s' : BuildState),
      StyleNode.build (.mk sb cs h) s = (.ok id, s') ↔
        ∃ st ids s₃ t', sb = .ok st ∧
          new_leaf st s.tree = (.ok id, (new_leaf st s.tree).2) ∧
          StyleNodeList.buildAll cs (handleStep h s.tree.nodes.length
            ⟨(new_leaf st s.tree).2, s.handles⟩) = (.ok ids, s₃) ∧
          set_children s.tree.nodes.length ids s₃.tree = (.ok (), t') ∧
          s' = { s₃ with tree := t' }) ∧
    (∀ (cs : StyleBuilderList) (h : Option Nat) (fs : StyleFields)
      (s : BuildState) (e : TaffyError) (s' : BuildState),
      StyleBuilder.build (.mk cs h fs) s = (.error e, s') ↔
        (∃ te t₁, new_leaf (StyleBuilder.build_style (.mk cs h fs)) s.tree =
          (.error te, t₁) ∧ e = te ∧ s' = { s with tree := t₁ }) ∨
        (StyleBuilderList.buildAll cs (handleStep h s.tree.nodes.length
          ⟨(new_leaf (StyleBuilder.build_style (.mk cs h fs)) s.tree).2, s.handles⟩) =
          (.error e, s')) ∨
        (∃ ids s₃ t', StyleBuilderList.buildAll cs (handleStep h s.tree.nodes.length
            ⟨(new_leaf (StyleBuilder.build_style (.mk cs h fs)) s.tree).2, s.handles⟩) =
            (.ok ids, s₃) ∧
          set_children s.tree.nodes.length ids s₃.tree = (.error e, t') ∧
          s' = { s₃ with tree := t' })) ∧
    (∀ (cs : StyleBuilderList) (h : Option Nat) (fs : StyleFields)
      (s : BuildState) (id : Nat) (s' : BuildState),
      StyleBuilder.build (.mk cs h fs) s = (.ok id, s') ↔
        ∃ ids s₃ t',
          new_leaf (StyleBuilder.build_style (.mk cs h fs)) s.tree =
            (.ok id, (new_leaf (StyleBuilder.build_style (.mk cs h fs)) s.tree).2) ∧
          StyleBuilderList.buildAll cs (handleStep h s.tree.nodes.length
            ⟨(new_leaf (StyleBuilder.build_style (.mk cs h fs)) s.tree).2, s.handles⟩) =
            (.ok ids, s₃) ∧
          set_children s.tree.nodes.length ids s₃.tree = (.ok (), t') ∧
          s' = { s₃ with tree := t' }) ∧
    (∀ (n : StyleNode) (rest : StyleNodeList) (s : BuildState)
      (e : StyleNodeError) (s' : BuildState),
      StyleNodeList.buildAll (.cons n rest) s = (.error e, s') ↔
        StyleNode.build n s = (.error e, s') ∨
        (∃ id s₁, StyleNode.build n s = (.ok id, s₁) ∧
          StyleNodeList.buildAll rest s₁ = (.error e, s'))) ∧
    (∀ (c : StyleBuilder) (rest : StyleBuilderList) (s : BuildState)
      (e : TaffyError) (s' : BuildState),
      StyleBuilderList.buildAll (.cons c rest) s = (.error e, s') ↔
        StyleBuilder.build c s = (.error e, s') ∨
        (∃ id s₁, StyleBuilder.build c s = (.ok id, s₁) ∧
          StyleBuilderList.buildAll rest s₁ = (.error e, s'))) :=
  ⟨styleNode_build_error_iff, styleNode_build_ok_iff, styleBuilder_build_error_iff,
    styleBuilder_build_ok_iff, styleNodeList_cons_error_iff, styleBuilderList_cons_error_iff⟩

end Taffy

















